import Mathlib

/-!
Verification of the tmuxy control-mode core against its specification.

Shallow embedding of the Rust sources:
  src/packages/tmuxy-core/src/control_mode/octal.rs
  src/packages/tmuxy-core/src/control_mode/parser.rs
  src/packages/tmuxy-core/src/control_mode/osc.rs
  src/packages/tmuxy-core/src/control_mode/state.rs
  src/packages/tmuxy-cli/src/sse.rs

Byte strings are modelled as `List Nat` (each entry a byte 0..255); Rust `&str`
values whose character content matters only through ASCII operations are also
modelled as byte lists where noted, otherwise as Lean `String`.
-/

namespace Tmuxy

/-! ## Octal decoder (octal.rs) -/

/-- `is_octal_digit` from octal.rs: `(b'0'..=b'7').contains(&b)`. -/
def isOctalDigit (b : Nat) : Bool := 48 ≤ b && b ≤ 55

/-- Octal value of three digit bytes, as computed in `decode_octal`:
`((d1 - b'0') * 64) + ((d2 - b'0') * 8) + (d3 - b'0')`. -/
def octVal (d1 d2 d3 : Nat) : Nat := (d1 - 48) * 64 + (d2 - 48) * 8 + (d3 - 48)

/-- `decode_octal` from octal.rs.  The Rust loop consumes `\ddd` (backslash and
three octal digits, value at most 255) as one byte, otherwise copies the byte
as-is; the guard `i + 3 < bytes.len()` corresponds to the four-element list
pattern below. -/
def decodeOctal : List Nat → List Nat
  | [] => []
  | b :: d1 :: d2 :: d3 :: rest =>
      if b = 92 ∧ isOctalDigit d1 ∧ isOctalDigit d2 ∧ isOctalDigit d3 ∧ octVal d1 d2 d3 ≤ 255 then
        octVal d1 d2 d3 :: decodeOctal rest
      else
        b :: decodeOctal (d1 :: d2 :: d3 :: rest)
  | b :: rest => b :: decodeOctal rest
termination_by l => l.length
decreasing_by all_goals simp_arith

/-- Modelled from the spec: tmux's control-mode octal encoding (the encoder
lives in tmux itself, not in this repository).  Each byte below 0x20 and the
backslash 0x5c is escaped as a backslash followed by the three octal digits of
its value; every other byte is emitted literally. -/
def encodeByte (b : Nat) : List Nat :=
  if b < 32 ∨ b = 92 then [92, 48 + b / 64, 48 + b / 8 % 8, 48 + b % 8] else [b]

/-- Modelled from the spec: octal-encode a whole byte string. -/
def encodeOctal (raw : List Nat) : List Nat := raw.flatMap encodeByte

/-! ## Notification parser (parser.rs) -/

/-- Control-mode events.  Only `CommandResponse` carries data any claim
touches; every other notification produced by `parse_notification` — a method
on `&self` that never mutates parser state — is abstracted by a single
constructor carrying the raw line. -/
inductive CMEvent where
  | commandResponse (timestamp : Nat) (commandNum : Nat) (output : String) (success : Bool)
  | notification (line : String)
deriving DecidableEq

/-- The `Parser` struct from parser.rs. -/
structure Parser where
  in_response : Bool
  response_buffer : String
  response_timestamp : Nat
  response_command_num : Nat
deriving DecidableEq

def Parser.new : Parser := ⟨false, "", 0, 0⟩

/-- Rust `str::starts_with`, at the character level. -/
def strStarts (s pre : String) : Bool := pre.data.isPrefixOf s.data

/-- Split a character list on a separator character (the semantics of Rust
`str::split(sep)` and of `String.splitOn` for a one-character separator). -/
def splitChars (sep : Char) : List Char → List (List Char)
  | [] => [[]]
  | c :: cs =>
    let r := splitChars sep cs
    if c = sep then [] :: r else (c :: r.headD []) :: r.tail

/-- Rust `str::split_whitespace`, restricted to the space character (the only
whitespace in control-mode lines): split on spaces, drop empty tokens. -/
def splitWs (s : String) : List String :=
  ((splitChars ' ' s.data).map String.mk).filter (fun t => ¬t.isEmpty)

/-- Digit-string to number, the semantics of Rust `str::parse::<uN>` on
unsigned decimal input (integers are modelled as `Nat`; a leading `+`, which
Rust also accepts, never occurs in control-mode lines). -/
def charsToNat? (cs : List Char) : Option Nat :=
  if cs ≠ [] ∧ cs.all (fun c => 48 ≤ c.toNat ∧ c.toNat ≤ 57) then
    some (cs.foldl (fun a c => a * 10 + (c.toNat - 48)) 0)
  else none

/-- `token.parse::<uN>().unwrap_or(0)`. -/
def parseNatOr0 (s : String) : Nat := (charsToNat? s.data).getD 0

/-- `Parser::handle_begin`: on `%begin timestamp command-number flags` with at
least three whitespace-separated parts, enter response mode, record timestamp
and command number, clear the buffer.  Never returns an event. -/
def Parser.handleBegin (p : Parser) (line : String) : Parser × Option CMEvent :=
  let parts := splitWs line
  if parts.length ≥ 3 then
    ({ in_response := true,
       response_buffer := "",
       response_timestamp := parseNatOr0 (parts.getD 1 ""),
       response_command_num := parseNatOr0 (parts.getD 2 "") }, none)
  else (p, none)

/-- `Parser::handle_end`: emit a `CommandResponse` carrying the stored
timestamp, command number and buffer (taken, leaving it empty), and leave
response mode. -/
def Parser.handleEnd (p : Parser) (success : Bool) : Parser × Option CMEvent :=
  ({ p with in_response := false, response_buffer := "" },
   some (.commandResponse p.response_timestamp p.response_command_num p.response_buffer success))

/-- `Parser::parse_line`.  Order of checks follows the source: `%begin `,
`%end `, `%error `, then in-response accumulation (a newline is pushed before
the line only when the buffer is non-empty), then notifications. -/
def Parser.parseLine (p : Parser) (line : String) : Parser × Option CMEvent :=
  if strStarts line "%begin " then p.handleBegin line
  else if strStarts line "%end " then p.handleEnd true
  else if strStarts line "%error " then p.handleEnd false
  else if p.in_response then
    ({ p with response_buffer :=
        if p.response_buffer.isEmpty then line else p.response_buffer ++ "\n" ++ line }, none)
  else if strStarts line "%" then (p, some (.notification line))
  else (p, none)

/-- Feed a list of lines through the parser, collecting the per-line events. -/
def Parser.run (p : Parser) : List String → Parser × List (Option CMEvent)
  | [] => (p, [])
  | l :: ls =>
    let s := p.parseLine l
    let r := s.1.run ls
    (r.1, s.2 :: r.2)

/-- A line that is not a response-block control line. -/
def NonControl (l : String) : Prop :=
  ¬strStarts l "%begin " ∧ ¬strStarts l "%end " ∧ ¬strStarts l "%error "

instance (l : String) : Decidable (NonControl l) := by unfold NonControl; infer_instance

/-- The buffer accumulation of parser.rs, as a fold: push a newline separator
only when the buffer is non-empty. -/
def appendAll (b : String) (ls : List String) : String :=
  ls.foldl (fun acc l => if acc.isEmpty then l else acc ++ "\n" ++ l) b

/-- Lines joined by single newline characters (the claim's joining). -/
def joinNL : List String → String
  | [] => ""
  | [l] => l
  | l :: ls => l ++ "\n" ++ joinNL ls

/-- Invariant of the parser: outside a response block the buffer is empty
(`handle_end` takes the buffer, `handle_begin` clears it). -/
def ParserInv (p : Parser) : Prop := p.in_response = false → p.response_buffer = ""

/-! ## Association-list model of `HashMap` -/

/-- `HashMap::insert`: replace the existing binding or append a new one. -/
def alInsert {α β : Type} [DecidableEq α] : List (α × β) → α → β → List (α × β)
  | [], k, v => [(k, v)]
  | (k', v') :: rest, k, v =>
    if k' = k then (k, v) :: rest else (k', v') :: alInsert rest k v

/-- `HashMap::get`. -/
def alLookup {α β : Type} [DecidableEq α] : List (α × β) → α → Option β
  | [], _ => none
  | (k', v) :: rest, k => if k' = k then some v else alLookup rest k

/-- `HashMap::contains_key`. -/
def alContains {α β : Type} [DecidableEq α] (m : List (α × β)) (k : α) : Bool :=
  (alLookup m k).isSome

/-! ## OSC parser (osc.rs)

The OSC parser operates on raw bytes; the Rust code converts OSC payloads to
strings with `from_utf8_lossy` before prefix tests and splitting.  All claim
inputs are ASCII, where that conversion is the identity, so payloads are kept
as byte lists here and the string operations are modelled byte-wise. -/

structure HyperlinkRegion where
  start_row : Nat
  start_col : Nat
  end_row : Nat
  end_col : Nat
  url : List Nat
  id : Option (List Nat)
deriving DecidableEq

/-- The `OscParser` struct from osc.rs (field `cell_urls` is the
`HashMap<(u32, u32), String>` of per-cell hyperlink URLs). -/
structure OscParser where
  active_hyperlink : Option (List Nat × Option (List Nat))
  hyperlink_start : Option (Nat × Nat)
  cursor_row : Nat
  cursor_col : Nat
  hyperlinks : List HyperlinkRegion
  pending_clipboard : Option (List Nat)
  cell_urls : List ((Nat × Nat) × List Nat)
deriving DecidableEq

def OscParser.new : OscParser := ⟨none, none, 0, 0, [], none, []⟩

/-- `OscParser::reset`: clear every field (meant for pane resize / refresh). -/
def OscParser.reset (_p : OscParser) : OscParser :=
  { active_hyperlink := none, hyperlink_start := none, cursor_row := 0, cursor_col := 0,
    hyperlinks := [], pending_clipboard := none, cell_urls := [] }

/-- `str::strip_prefix` on byte lists. -/
def dropPfx : List Nat → List Nat → Option (List Nat)
  | [], l => some l
  | _ :: _, [] => none
  | p :: ps, x :: xs => if x = p then dropPfx ps xs else none

/-- `str::splitn(2, sep)` on byte lists: `none` when the separator is absent
(fewer than two parts), otherwise the parts before and after the first
separator. -/
def splitFirst (sep : Nat) : List Nat → Option (List Nat × List Nat)
  | [] => none
  | b :: rest =>
    if b = sep then some ([], rest)
    else (splitFirst sep rest).map (fun pr => (b :: pr.1, pr.2))

/-- Split on every separator occurrence (the semantics of `str::split`),
generic over the element type. -/
def splitList {α : Type} [DecidableEq α] (sep : α) : List α → List (List α)
  | [] => [[]]
  | c :: cs =>
    let r := splitList sep cs
    if c = sep then [] :: r else (c :: r.headD []) :: r.tail

/-- `params.split(':').find_map(|p| p.strip_prefix("id=") …)` from
`parse_osc8` (58 is the colon; 105,100,61 is `id=`). -/
def findOsc8Id (params : List Nat) : Option (List Nat) :=
  (splitList 58 params).findSome? (fun seg => dropPfx [105, 100, 61] seg)

/-- The base64 alphabet of osc.rs (`A..Z a..z 0..9 + /`). -/
def b64Alphabet : List Nat :=
  (List.range 26).map (fun i => 65 + i) ++ (List.range 26).map (fun i => 97 + i)
    ++ (List.range 10).map (fun i => 48 + i) ++ [43, 47]

/-- The loop of `base64_decode`: `=` stops, whitespace is skipped, other bytes
must be alphabet members; accumulate six bits at a time and emit a byte once
eight are available (`buffer` and `bits` stay below 2^14 and 12, so the `u32`
arithmetic is exact in `Nat`; `as u8` is the `% 256`). -/
def b64Go : List Nat → Nat → Nat → List Nat → Except String (List Nat)
  | [], _, _, out => .ok out.reverse
  | c :: rest, buffer, bits, out =>
    if c = 61 then .ok out.reverse
    else if c = 10 ∨ c = 13 ∨ c = 32 then b64Go rest buffer bits out
    else
      match b64Alphabet.findIdx? (fun x => x = c) with
      | none => .error "Invalid base64 character"
      | some v =>
        let buf2 := buffer * 64 + v
        let bits2 := bits + 6
        if bits2 ≥ 8 then
          b64Go rest (buf2 % 2 ^ (bits2 - 8)) (bits2 - 8) (buf2 / 2 ^ (bits2 - 8) % 256 :: out)
        else b64Go rest buf2 bits2 out

/-- `base64_decode` from osc.rs. -/
def base64Decode (input : List Nat) : Except String (List Nat) := b64Go input 0 0 []

/-- The scan loop of `find_osc_end`, starting at byte offset `i` of the
original slice: `ESC \` terminates consuming two bytes, BEL terminates
consuming one, anything else is payload. -/
def scanOsc : List Nat → Nat → List Nat → Option (Nat × List Nat)
  | [], _, _ => none
  | b :: rest, i, acc =>
    if b = 27 ∧ rest.head? = some 92 then some (i + 2, acc.reverse)
    else if b = 7 then some (i + 1, acc.reverse)
    else scanOsc rest (i + 1) (b :: acc)

/-- `OscParser::find_osc_end`: requires the `ESC ]` introduction, then scans
for the terminator; returns total length consumed and the payload. -/
def findOscEnd : List Nat → Option (Nat × List Nat)
  | a :: b :: rest => if a = 27 ∧ b = 93 then scanOsc rest 2 [] else none
  | _ => none

/-- `OscParser::finalize_hyperlink`: both options are taken (cleared) in all
cases; a region is recorded only when both were set. -/
def OscParser.finalizeHyperlink (p : OscParser) : OscParser :=
  match p.active_hyperlink, p.hyperlink_start with
  | some (url, id), some st =>
    { p with
      hyperlinks := p.hyperlinks
        ++ [{ start_row := st.1, start_col := st.2, end_row := p.cursor_row,
              end_col := p.cursor_col, url := url, id := id }],
      active_hyperlink := none, hyperlink_start := none }
  | _, _ => { p with active_hyperlink := none, hyperlink_start := none }

/-- `OscParser::parse_osc8`. -/
def OscParser.parseOsc8 (p : OscParser) (content : List Nat) : OscParser :=
  match splitFirst 59 content with
  | none => p
  | some (params, url) =>
    if url = [] then p.finalizeHyperlink
    else
      let id := findOsc8Id params
      let q := p.finalizeHyperlink
      { q with active_hyperlink := some (url, id),
               hyperlink_start := some (q.cursor_row, q.cursor_col) }

/-- `OscParser::parse_osc52`: `String::from_utf8` succeeds on the ASCII
fragment modelled here (every byte below 128). -/
def OscParser.parseOsc52 (p : OscParser) (content : List Nat) : OscParser :=
  match splitFirst 59 content with
  | none => p
  | some (_, data) =>
    match base64Decode data with
    | .ok decoded =>
      if decoded.all (fun b => b < 128) then { p with pending_clipboard := some decoded } else p
    | .error _ => p

/-- `OscParser::parse_osc` (56,59 is `8;`; 53,50,59 is `52;`). -/
def OscParser.parseOsc (p : OscParser) (content : List Nat) : OscParser :=
  match dropPfx [56, 59] content with
  | some rest => p.parseOsc8 rest
  | none =>
    match dropPfx [53, 50, 59] content with
    | some rest => p.parseOsc52 rest
    | none => p

/-- The per-byte, non-OSC step of `OscParser::process`: newline advances the
row (`finalize_hyperlink_line` is a no-op in the source), carriage return
resets the column, printable bytes map the active URL onto the current cell
and advance the column. -/
def OscParser.handleByte (p : OscParser) (b : Nat) : OscParser :=
  if b = 10 then { p with cursor_row := p.cursor_row + 1, cursor_col := 0 }
  else if b = 13 then { p with cursor_col := 0 }
  else if 32 ≤ b ∧ b < 127 then
    match p.active_hyperlink with
    | some (url, _) =>
      { p with cell_urls := alInsert p.cell_urls (p.cursor_row, p.cursor_col) url,
               cursor_col := p.cursor_col + 1 }
    | none => { p with cursor_col := p.cursor_col + 1 }
  else p

/-- The loop of `OscParser::process`: on `ESC ]` with a found terminator,
parse the payload and skip the whole sequence (the source advances `i` by the
returned length, here `drop (len - 1)` of the tail since the head is already
consumed; the length is always at least 3); otherwise handle the byte and
copy it to the output. -/
def OscParser.processGo : OscParser → List Nat → List Nat → OscParser × List Nat
  | p, [], acc => (p, acc.reverse)
  | p, b :: rest, acc =>
    if b = 27 ∧ rest.head? = some 93 then
      match findOscEnd (b :: rest) with
      | some (len, osc) => OscParser.processGo (p.parseOsc osc) (rest.drop (len - 1)) acc
      | none => OscParser.processGo (p.handleByte b) rest (b :: acc)
    else OscParser.processGo (p.handleByte b) rest (b :: acc)
termination_by _ l _ => l.length
decreasing_by
  all_goals simp
  have := List.length_drop (len - 1) rest
  omega

/-- `OscParser::process`: returns the bytes with OSC sequences stripped,
alongside the updated parser. -/
def OscParser.process (p : OscParser) (content : List Nat) : OscParser × List Nat :=
  OscParser.processGo p content []

/-! ## Pane and aggregator state (state.rs)

The vt100 terminal emulator is an external crate.  It is modelled freely as
its dimensions plus the list of byte strings fed to it since creation — the
aggregator only ever creates emulators and feeds them bytes, so this model is
faithful for every claim below. -/

structure Vt100 where
  rows : Nat
  cols : Nat
  fed : List (List Nat)
deriving DecidableEq

def Vt100.new (rows cols : Nat) : Vt100 := ⟨rows, cols, []⟩

def Vt100.process (t : Vt100) (content : List Nat) : Vt100 :=
  { t with fed := t.fed ++ [content] }

/-- Rust `str::contains(char)`. -/
def strContains (s : String) (c : Char) : Bool := s.data.contains c

/-- Rust `str::trim`, restricted to spaces (the only whitespace that can
surround a comma-separated field here). -/
def strTrim (s : String) : String :=
  String.mk (((s.data.dropWhile (fun c => c = ' ')).reverse.dropWhile (fun c => c = ' ')).reverse)

/-- Rust `line.split(',')`. -/
def splitComma (s : String) : List String := (splitList ',' s.data).map String.mk

/-- Rust `Vec::join(",")`. -/
def joinComma : List String → String
  | [] => ""
  | [s] => s
  | s :: rest => s ++ "," ++ joinComma rest

/-- `token.parse::<uN>().ok()`. -/
def parseNat? (s : String) : Option Nat := charsToNat? s.data

/-- Rust `str::trim_start_matches(char)`. -/
def trimStartMatches (c : Char) (s : String) : String :=
  String.mk (s.data.dropWhile (fun x => x = c))

/-- Rust `str::lines`: split on newline, a trailing newline produces no final
empty line (tmux control-mode output never contains `\r\n`). -/
def rustLines (s : String) : List String :=
  let parts := (splitList '\n' s.data).map String.mk
  if parts.getLast? = some "" then parts.dropLast else parts

/-- The newline normalization of `reset_and_process_capture` and
`process_copy_mode_capture`: bare `\n` becomes `\r\n`. -/
def normalizeNl (content : List Nat) : List Nat :=
  content.flatMap (fun b => if b = 10 then [13, 10] else [b])

/-- The `PaneState` struct from state.rs.  `osc` is the source's `osc_parser`
field; `copy_mode_content` stores what the temporary emulator of
`process_copy_mode_capture` was fed (the cell extraction itself lives in the
external vt100 crate). -/
structure PaneState where
  id : String
  pane_index : Nat
  window_id : String
  terminal : Vt100
  osc : OscParser
  raw_buffer : List Nat
  x : Nat
  y : Nat
  width : Nat
  height : Nat
  active : Bool
  command : String
  title : String
  border_title : String
  in_mode : Bool
  copy_cursor_x : Nat
  copy_cursor_y : Nat
  tmux_cursor_x : Nat
  tmux_cursor_y : Nat
  alternate_on : Bool
  mouse_any_flag : Bool
  paused : Bool
  group_id : Option String
  group_tab_index : Option Nat
  copy_mode_content : Option (List Nat)
deriving DecidableEq

/-- `PaneState::new`. -/
def PaneState.new (id : String) (width height : Nat) : PaneState where
  id := id
  pane_index := 0
  window_id := ""
  terminal := Vt100.new height width
  osc := OscParser.new
  raw_buffer := []
  x := 0
  y := 0
  width := width
  height := height
  active := false
  command := ""
  title := ""
  border_title := ""
  in_mode := false
  copy_cursor_x := 0
  copy_cursor_y := 0
  tmux_cursor_x := 0
  tmux_cursor_y := 0
  alternate_on := false
  mouse_any_flag := false
  paused := false
  group_id := none
  group_tab_index := none
  copy_mode_content := none

/-- `PaneState::process_output`: extend the raw buffer (keeping the last
65536 bytes), run the bytes through the OSC parser, feed the stripped bytes
to the emulator. -/
def PaneState.process_output (p : PaneState) (content : List Nat) : PaneState :=
  let raw1 := p.raw_buffer ++ content
  let raw2 := if raw1.length > 65536 then raw1.drop (raw1.length - 65536) else raw1
  let pr := p.osc.process content
  { p with
      raw_buffer := raw2
      osc := pr.1
      terminal := p.terminal.process pr.2 }

/-- `PaneState::reset_and_process_capture`: fresh emulator of the current
dimensions, clear the raw buffer, process the newline-normalized capture, then
store the raw capture bytes.  Note: the OSC parser is left untouched. -/
def PaneState.reset_and_process_capture (p : PaneState) (content : List Nat) : PaneState :=
  { p with
      terminal := (Vt100.new p.height p.width).process (normalizeNl content)
      raw_buffer := content }

/-- `PaneState::resize`: when the dimensions change, store them, replace the
emulator with a fresh one and clear the raw buffer, returning `true`.  Note:
the OSC parser is left untouched. -/
def PaneState.resize (p : PaneState) (width height : Nat) : PaneState × Bool :=
  if p.width ≠ width ∨ p.height ≠ height then
    ({ p with
        width := width
        height := height
        terminal := Vt100.new height width
        raw_buffer := [] }, true)
  else (p, false)

/-- `PaneState::process_copy_mode_capture`: a temporary emulator is fed the
newline-normalized capture and its extracted screen becomes the copy-mode
snapshot; the main terminal is untouched. -/
def PaneState.process_copy_mode_capture (p : PaneState) (content : List Nat) : PaneState :=
  { p with copy_mode_content := some (normalizeNl content) }

/-- The `WindowState` struct from state.rs (`windex` is the source's `index`
field). -/
structure WindowState where
  id : String
  windex : Nat
  name : String
  active : Bool
  layout : String
  float_parent : Option String
  float_width : Option Nat
  float_height : Option Nat
deriving DecidableEq

/-- `WindowState::new`. -/
def WindowState.new (id : String) : WindowState where
  id := id
  windex := parseNatOr0 (trimStartMatches '@' id)
  name := ""
  active := false
  layout := ""
  float_parent := none
  float_width := none
  float_height := none

/-- The fields parsed from one list-panes line by
`StateAggregator::parse_list_panes_line`, before they are applied to the pane
map. -/
structure LineData where
  pane_id : String
  pane_index : Nat
  x : Nat
  y : Nat
  width : Nat
  height : Nat
  cursor_x : Nat
  cursor_y : Nat
  active : Bool
  command : String
  title : String
  in_mode : Bool
  copy_cursor_x : Nat
  copy_cursor_y : Nat
  window_id : String
  border_title : String
  alternate_on : Bool
  mouse_any_flag : Bool
  group_id : Option String
  group_tab_index : Option Nat
deriving DecidableEq

/-- The parsing half of `parse_list_panes_line` (the mutation half is
`applyListPanesLine` below): split on commas, require at least 11 fields and
a `%`-prefixed pane id, parse the fixed fields with their defaults, and take
the last four trailing fields from the end so that `border_title` may itself
contain commas. -/
def parseListPanesFields (line : String) : Option LineData :=
  let parts := splitComma line
  if parts.length < 11 then none
  else
    let pane_id := strTrim (parts.getD 0 "")
    if ¬strStarts pane_id "%" then none
    else
      let remaining := parts.drop 15
      let tailFields :=
        if remaining.length ≥ 4 then
          let lastIdx := remaining.length - 1
          let gid := remaining.getD (lastIdx - 1) ""
          (if remaining.length > 4 then joinComma (remaining.take (remaining.length - 4)) else "",
           remaining.getD (lastIdx - 3) "" == "1",
           remaining.getD (lastIdx - 2) "" == "1",
           if gid.isEmpty then none else some gid,
           parseNat? (remaining.getD lastIdx ""))
        else if remaining.length ≥ 2 then
          let lastIdx := remaining.length - 1
          (if remaining.length > 2 then joinComma (remaining.take (remaining.length - 2)) else "",
           remaining.getD (lastIdx - 1) "" == "1",
           remaining.getD lastIdx "" == "1",
           none,
           none)
        else if remaining.length = 1 then
          (remaining.getD 0 "", false, false, none, none)
        else ("", false, false, none, none)
      some
        { pane_id := pane_id
          pane_index := parseNatOr0 (parts.getD 1 "")
          x := parseNatOr0 (parts.getD 2 "")
          y := parseNatOr0 (parts.getD 3 "")
          width := (parseNat? (parts.getD 4 "")).getD 80
          height := (parseNat? (parts.getD 5 "")).getD 24
          cursor_x := parseNatOr0 (parts.getD 6 "")
          cursor_y := parseNatOr0 (parts.getD 7 "")
          active := parts.getD 8 "" == "1"
          command := parts.getD 9 ""
          title := parts.getD 10 ""
          in_mode := ((parts.get? 11).map (fun s => s == "1")).getD false
          copy_cursor_x := ((parts.get? 12).bind parseNat?).getD 0
          copy_cursor_y := ((parts.get? 13).bind parseNat?).getD 0
          window_id := (parts.get? 14).getD ""
          border_title := tailFields.1
          alternate_on := tailFields.2.1
          mouse_any_flag := tailFields.2.2.1
          group_id := tailFields.2.2.2.1
          group_tab_index := tailFields.2.2.2.2 }

/-- The pane map (`HashMap<String, PaneState>`). -/
abbrev PaneMap := List (String × PaneState)

/-- The mutation half of `parse_list_panes_line`: get-or-create the pane,
update every field, resize (which reports whether dimensions changed), clear
the copy-mode snapshot on an in-mode → not-in-mode transition, store the
authoritative tmux cursor.  Returns the new map, the pane id, and
`needs_capture` (new pane or resized). -/
def applyListPanesLine (panes : PaneMap) (d : LineData) : PaneMap × String × Bool :=
  let isNew := ¬alContains panes d.pane_id
  let pane0 := (alLookup panes d.pane_id).getD (PaneState.new d.pane_id d.width d.height)
  let pane1 := { pane0 with pane_index := d.pane_index, x := d.x, y := d.y }
  let rz := pane1.resize d.width d.height
  let wasInMode := rz.1.in_mode
  let pane2 :=
    { rz.1 with
        active := d.active
        command := d.command
        title := d.title
        border_title := d.border_title
        in_mode := d.in_mode
        copy_cursor_x := d.copy_cursor_x
        copy_cursor_y := d.copy_cursor_y
        window_id := d.window_id
        alternate_on := d.alternate_on
        mouse_any_flag := d.mouse_any_flag
        group_id := d.group_id
        group_tab_index := d.group_tab_index
        tmux_cursor_x := d.cursor_x
        tmux_cursor_y := d.cursor_y }
  let pane3 :=
    if wasInMode ∧ ¬d.in_mode then { pane2 with copy_mode_content := none } else pane2
  (alInsert panes d.pane_id pane3, d.pane_id, isNew ∨ rz.2)

/-- `StateAggregator::parse_list_panes_line`, as parse-then-apply. -/
def parseListPanesLine (panes : PaneMap) (line : String) :
    Option (PaneMap × String × Bool) :=
  (parseListPanesFields line).map (applyListPanesLine panes)

/-- `StateAggregator::parse_list_windows_line`: at least 4 fields and an
`@`-prefixed id; get-or-create the window and update its fields; an active
line also updates the aggregator's active window id. -/
def parseListWindowsLine (ws : List (String × WindowState)) (act : Option String)
    (line : String) : List (String × WindowState) × Option String :=
  let parts := splitComma line
  if parts.length < 4 then (ws, act)
  else
    let window_id := strTrim (parts.getD 0 "")
    if ¬strStarts window_id "@" then (ws, act)
    else
      let w0 := (alLookup ws window_id).getD (WindowState.new window_id)
      let w1 :=
        { w0 with
            windex := parseNatOr0 (parts.getD 1 "")
            name := parts.getD 2 ""
            active := parts.getD 3 "" == "1"
            float_parent := (parts.get? 4).bind (fun s => if s.isEmpty then none else some s)
            float_width := (parts.get? 5).bind parseNat?
            float_height := (parts.get? 6).bind parseNat? }
      (alInsert ws window_id w1,
       if parts.getD 3 "" == "1" then some window_id else act)

/-- Result of the list-panes pass of `handle_command_response`. -/
structure PanesLoopResult where
  panes : PaneMap
  seen : List String
  resized : List String
  isListPanes : Bool
deriving DecidableEq

/-- The list-panes pass of `handle_command_response`: for every line holding
both `%` and `,`, try `parse_list_panes_line`; record seen ids, resized ids,
and whether any line parsed. -/
def panesLoop (panes : PaneMap) : List String → PanesLoopResult
  | [] => ⟨panes, [], [], false⟩
  | line :: rest =>
    if strContains line '%' ∧ strContains line ',' then
      match parseListPanesLine panes line with
      | some pr =>
        let r := panesLoop pr.1 rest
        ⟨r.panes, pr.2.1 :: r.seen, (if pr.2.2 then [pr.2.1] else []) ++ r.resized, true⟩
      | none => panesLoop panes rest
    else panesLoop panes rest

/-- Result of the list-windows pass of `handle_command_response`. -/
structure WindowsLoopResult where
  windows : List (String × WindowState)
  activeId : Option String
  isListWindows : Bool
deriving DecidableEq

/-- The list-windows pass of `handle_command_response`: for every line holding
both `@` and `,`, run `parse_list_windows_line`; the flag is set by the line
condition alone, as in the source. -/
def windowsLoop (ws : List (String × WindowState)) (act : Option String) :
    List String → WindowsLoopResult
  | [] => ⟨ws, act, false⟩
  | line :: rest =>
    if strContains line '@' ∧ strContains line ',' then
      let p := parseListWindowsLine ws act line
      let r := windowsLoop p.1 p.2 rest
      ⟨r.windows, r.activeId, true⟩
    else windowsLoop ws act rest

/-- The aggregator fields `handle_command_response` touches. -/
structure Agg where
  panes : PaneMap
  windows : List (String × WindowState)
  active_window_id : Option String
  status_line_dirty : Bool
deriving DecidableEq

/-- `StateAggregator::handle_command_response`: run the list-panes pass over
the output's lines; if it was a list-panes response with at least one seen
pane, retain only panes that were seen or have an empty window id; then run
the list-windows pass and mark the status line dirty if it was a list-windows
response.  Returns the resized pane ids. -/
def handleCommandResponse (st : Agg) (output : String) : Agg × List String :=
  let r := panesLoop st.panes (rustLines output)
  let panes2 :=
    if r.isListPanes ∧ r.seen ≠ [] then
      r.panes.filter (fun kv => r.seen.contains kv.1 || kv.2.window_id == "")
    else r.panes
  let w := windowsLoop st.windows st.active_window_id (rustLines output)
  ({ panes := panes2
     windows := w.windows
     active_window_id := w.activeId
     status_line_dirty := if w.isListWindows then true else st.status_line_dirty },
   r.resized)

/-- The pane ids carried by a list of list-panes lines. -/
def idsOfLines (lines : List String) : List String :=
  lines.filterMap (fun l => (parseListPanesFields l).map LineData.pane_id)

/-- The pane ids carried by a list-panes response (the claim's set P). -/
def paneIdsOf (output : String) : List String := idsOfLines (rustLines output)

/-- A well-formed list-panes line: contains `%` and `,`, parses, and carries a
non-empty window id. -/
def GoodLine (l : String) : Prop :=
  strContains l '%' ∧ strContains l ',' ∧
    ∃ d, parseListPanesFields l = some d ∧ d.window_id ≠ ""

/-- Boolean form of `GoodLine`, for deciding concrete instances. -/
def goodLineB (l : String) : Bool :=
  strContains l '%' && strContains l ',' &&
    (match parseListPanesFields l with
     | some d => !(d.window_id == "")
     | none => false)

instance (l : String) : Decidable (GoodLine l) :=
  decidable_of_iff (goodLineB l = true) (by
    unfold goodLineB GoodLine
    cases h : parseListPanesFields l with
    | none => simp [h]
    | some d => simp [h, and_assoc])

/-! ## Snapshot and delta types (lib.rs) and `to_state_update` (state.rs) -/

inductive CellColor where
  | indexed (i : Nat)
  | rgb (r g b : Nat)
deriving DecidableEq

structure CellStyle where
  fg : Option CellColor
  bg : Option CellColor
  bold : Bool
  italic : Bool
  underline : Bool
  inverse : Bool
  url : Option String
deriving DecidableEq

structure TerminalCell where
  ch : String
  style : Option CellStyle
deriving DecidableEq

/-- `PaneContent = Vec<Vec<TerminalCell>>`. -/
abbrev PaneContent := List (List TerminalCell)

/-- The `TmuxPane` struct of lib.rs (the snapshot record, distinct from the
aggregator's `PaneState`). -/
structure TmuxPane where
  id : Nat
  tmux_id : String
  window_id : String
  content : PaneContent
  cursor_x : Nat
  cursor_y : Nat
  width : Nat
  height : Nat
  x : Nat
  y : Nat
  active : Bool
  command : String
  title : String
  border_title : String
  in_mode : Bool
  copy_cursor_x : Nat
  copy_cursor_y : Nat
  alternate_on : Bool
  mouse_any_flag : Bool
  paused : Bool
  group_id : Option String
  group_tab_index : Option Nat
deriving DecidableEq

structure TmuxWindow where
  id : String
  windex : Nat
  name : String
  active : Bool
  is_pane_group_window : Bool
  pane_group_parent_pane : Option String
  pane_group_index : Option Nat
  is_float_window : Bool
  float_parent : Option String
  float_width : Option Nat
  float_height : Option Nat
deriving DecidableEq

structure TmuxPopup where
  id : String
  content : PaneContent
  cursor_x : Nat
  cursor_y : Nat
  width : Nat
  height : Nat
  x : Nat
  y : Nat
  active : Bool
  command : String
deriving DecidableEq

structure TmuxState where
  session_name : String
  active_window_id : Option String
  active_pane_id : Option String
  panes : List TmuxPane
  windows : List TmuxWindow
  total_width : Nat
  total_height : Nat
  status_line : String
  popup : Option TmuxPopup
deriving DecidableEq

/-- `PaneDelta` of lib.rs: one `Option` per potentially-changed field. -/
structure PaneDelta where
  window_id : Option String
  content : Option PaneContent
  cursor_x : Option Nat
  cursor_y : Option Nat
  width : Option Nat
  height : Option Nat
  x : Option Nat
  y : Option Nat
  active : Option Bool
  command : Option String
  title : Option String
  border_title : Option String
  in_mode : Option Bool
  copy_cursor_x : Option Nat
  copy_cursor_y : Option Nat
  alternate_on : Option Bool
  mouse_any_flag : Option Bool
  paused : Option Bool
  group_id : Option (Option String)
  group_tab_index : Option (Option Nat)
deriving DecidableEq

def PaneDelta.default : PaneDelta :=
  ⟨none, none, none, none, none, none, none, none, none, none,
   none, none, none, none, none, none, none, none, none, none⟩

/-- `PaneDelta::is_empty`. -/
def PaneDelta.isEmpty (d : PaneDelta) : Bool :=
  d.window_id.isNone && d.content.isNone && d.cursor_x.isNone && d.cursor_y.isNone
    && d.width.isNone && d.height.isNone && d.x.isNone && d.y.isNone && d.active.isNone
    && d.command.isNone && d.title.isNone && d.border_title.isNone && d.in_mode.isNone
    && d.copy_cursor_x.isNone && d.copy_cursor_y.isNone && d.alternate_on.isNone
    && d.mouse_any_flag.isNone && d.paused.isNone && d.group_id.isNone
    && d.group_tab_index.isNone

structure WindowDelta where
  name : Option String
  active : Option Bool
  is_pane_group_window : Option Bool
  pane_group_parent_pane : Option (Option String)
  pane_group_index : Option (Option Nat)
  is_float_window : Option Bool
  float_parent : Option (Option String)
  float_width : Option (Option Nat)
  float_height : Option (Option Nat)
deriving DecidableEq

def WindowDelta.default : WindowDelta :=
  ⟨none, none, none, none, none, none, none, none, none⟩

/-- `WindowDelta::is_empty`. -/
def WindowDelta.isEmpty (d : WindowDelta) : Bool :=
  d.name.isNone && d.active.isNone && d.is_pane_group_window.isNone
    && d.pane_group_parent_pane.isNone && d.pane_group_index.isNone
    && d.is_float_window.isNone && d.float_parent.isNone && d.float_width.isNone
    && d.float_height.isNone

/-- `TmuxDelta` of lib.rs (the two `HashMap<String, Option<…Delta>>` fields
are association lists here). -/
structure TmuxDelta where
  seq : Nat
  panes : Option (List (String × Option PaneDelta))
  windows : Option (List (String × Option WindowDelta))
  new_panes : Option (List TmuxPane)
  new_windows : Option (List TmuxWindow)
  active_window_id : Option String
  active_pane_id : Option String
  status_line : Option String
  total_width : Option Nat
  total_height : Option Nat
  popup : Option (Option TmuxPopup)
deriving DecidableEq

/-- `TmuxDelta::new`. -/
def TmuxDelta.new (seq : Nat) : TmuxDelta :=
  ⟨seq, none, none, none, none, none, none, none, none, none, none⟩

/-- `TmuxDelta::is_empty` (the sequence number is not part of it). -/
def TmuxDelta.isEmpty (d : TmuxDelta) : Bool :=
  d.panes.isNone && d.windows.isNone && d.new_panes.isNone && d.new_windows.isNone
    && d.active_window_id.isNone && d.active_pane_id.isNone && d.status_line.isNone
    && d.total_width.isNone && d.total_height.isNone && d.popup.isNone

/-- `StateUpdate` of lib.rs. -/
inductive StateUpdate where
  | full (state : TmuxState)
  | delta (delta : TmuxDelta)
deriving DecidableEq

/-- `StateAggregator::compute_pane_delta`.  Note that the source never
compares `title`, so a title-only change yields an empty delta. -/
def computePaneDelta (prev curr : TmuxPane) : PaneDelta :=
  { PaneDelta.default with
      window_id := if prev.window_id ≠ curr.window_id then some curr.window_id else none
      content := if prev.content ≠ curr.content then some curr.content else none
      cursor_x := if prev.cursor_x ≠ curr.cursor_x then some curr.cursor_x else none
      cursor_y := if prev.cursor_y ≠ curr.cursor_y then some curr.cursor_y else none
      width := if prev.width ≠ curr.width then some curr.width else none
      height := if prev.height ≠ curr.height then some curr.height else none
      x := if prev.x ≠ curr.x then some curr.x else none
      y := if prev.y ≠ curr.y then some curr.y else none
      active := if prev.active ≠ curr.active then some curr.active else none
      command := if prev.command ≠ curr.command then some curr.command else none
      border_title := if prev.border_title ≠ curr.border_title then some curr.border_title else none
      in_mode := if prev.in_mode ≠ curr.in_mode then some curr.in_mode else none
      copy_cursor_x := if prev.copy_cursor_x ≠ curr.copy_cursor_x then some curr.copy_cursor_x else none
      copy_cursor_y := if prev.copy_cursor_y ≠ curr.copy_cursor_y then some curr.copy_cursor_y else none
      alternate_on := if prev.alternate_on ≠ curr.alternate_on then some curr.alternate_on else none
      mouse_any_flag := if prev.mouse_any_flag ≠ curr.mouse_any_flag then some curr.mouse_any_flag else none
      paused := if prev.paused ≠ curr.paused then some curr.paused else none
      group_id := if prev.group_id ≠ curr.group_id then some curr.group_id else none
      group_tab_index := if prev.group_tab_index ≠ curr.group_tab_index then some curr.group_tab_index else none }

/-- `StateAggregator::compute_window_delta`. -/
def computeWindowDelta (prev curr : TmuxWindow) : WindowDelta :=
  { WindowDelta.default with
      name := if prev.name ≠ curr.name then some curr.name else none
      active := if prev.active ≠ curr.active then some curr.active else none
      is_pane_group_window :=
        if prev.is_pane_group_window ≠ curr.is_pane_group_window
        then some curr.is_pane_group_window else none
      pane_group_parent_pane :=
        if prev.pane_group_parent_pane ≠ curr.pane_group_parent_pane
        then some curr.pane_group_parent_pane else none
      pane_group_index :=
        if prev.pane_group_index ≠ curr.pane_group_index
        then some curr.pane_group_index else none
      is_float_window :=
        if prev.is_float_window ≠ curr.is_float_window then some curr.is_float_window else none
      float_parent :=
        if prev.float_parent ≠ curr.float_parent then some curr.float_parent else none
      float_width :=
        if prev.float_width ≠ curr.float_width then some curr.float_width else none
      float_height :=
        if prev.float_height ≠ curr.float_height then some curr.float_height else none }

/-- `iter().map(|p| (key, p)).collect::<HashMap<_,_>>()`: on duplicate keys
the later entry wins, as with `HashMap` collection. -/
def buildPaneMap (panes : List TmuxPane) : List (String × TmuxPane) :=
  panes.foldl (fun m p => alInsert m p.tmux_id p) []

def buildWindowMap (ws : List TmuxWindow) : List (String × TmuxWindow) :=
  ws.foldl (fun m w => alInsert m w.id w) []

/-- The two pane loops of `to_state_update`: modified/new panes from the
current map, then tombstones for removed ones. -/
def panesDeltaPass (prevPanes currPanes : List (String × TmuxPane)) :
    List (String × Option PaneDelta) × List TmuxPane :=
  let step := currPanes.foldl
    (fun (acc : List (String × Option PaneDelta) × List TmuxPane) kv =>
      match alLookup prevPanes kv.1 with
      | none => (acc.1, acc.2 ++ [kv.2])
      | some pp =>
        let pd := computePaneDelta pp kv.2
        if pd.isEmpty then acc else (alInsert acc.1 kv.1 (some pd), acc.2))
    ([], [])
  (prevPanes.foldl
    (fun acc kv => if alContains currPanes kv.1 then acc else alInsert acc kv.1 none)
    step.1,
   step.2)

/-- The two window loops of `to_state_update`. -/
def windowsDeltaPass (prevWs currWs : List (String × TmuxWindow)) :
    List (String × Option WindowDelta) × List TmuxWindow :=
  let step := currWs.foldl
    (fun (acc : List (String × Option WindowDelta) × List TmuxWindow) kv =>
      match alLookup prevWs kv.1 with
      | none => (acc.1, acc.2 ++ [kv.2])
      | some pw =>
        let wd := computeWindowDelta pw kv.2
        if wd.isEmpty then acc else (alInsert acc.1 kv.1 (some wd), acc.2))
    ([], [])
  (prevWs.foldl
    (fun acc kv => if alContains currWs kv.1 then acc else alInsert acc kv.1 none)
    step.1,
   step.2)

/-- The popup match of `to_state_update`. -/
def popupDelta (curr prev : Option TmuxPopup) : Option (Option TmuxPopup) :=
  match curr, prev with
  | some c, none => some (some c)
  | none, some _ => some none
  | some c, some p =>
    if c.id ≠ p.id ∨ c.content ≠ p.content ∨ c.cursor_x ≠ p.cursor_x
        ∨ c.cursor_y ≠ p.cursor_y ∨ c.width ≠ p.width ∨ c.height ≠ p.height
        ∨ c.x ≠ p.x ∨ c.y ≠ p.y ∨ c.active ≠ p.active ∨ c.command ≠ p.command
    then some (some c) else none
  | none, none => none

/-- The delta assembled by `to_state_update` before the emptiness check (its
seq is assigned only after that check). -/
def computeDelta (prev current : TmuxState) : TmuxDelta :=
  let pp := panesDeltaPass (buildPaneMap prev.panes) (buildPaneMap current.panes)
  let ww := windowsDeltaPass (buildWindowMap prev.windows) (buildWindowMap current.windows)
  { TmuxDelta.new 0 with
      total_width :=
        if current.total_width ≠ prev.total_width then some current.total_width else none
      total_height :=
        if current.total_height ≠ prev.total_height then some current.total_height else none
      active_window_id :=
        if current.active_window_id ≠ prev.active_window_id
        then current.active_window_id else none
      active_pane_id :=
        if current.active_pane_id ≠ prev.active_pane_id then current.active_pane_id else none
      status_line :=
        if current.status_line ≠ prev.status_line then some current.status_line else none
      panes := if pp.1 ≠ [] then some pp.1 else none
      new_panes := if pp.2 ≠ [] then some pp.2 else none
      windows := if ww.1 ≠ [] then some ww.1 else none
      new_windows := if ww.2 ≠ [] then some ww.2 else none
      popup := popupDelta current.popup prev.popup }

/-- The pane-change count of the 50% check: changed-or-removed entries plus
new panes. -/
def changedPanesCount (prev current : TmuxState) : Nat :=
  let pp := panesDeltaPass (buildPaneMap prev.panes) (buildPaneMap current.panes)
  pp.1.length + pp.2.length

/-- `StateAggregator::to_state_update`, with the aggregator's delta-tracking
state (`prev_state`, `delta_seq`) and the freshly built `current` snapshot as
explicit arguments; returns the new tracking state and the optional emission.
With no previous snapshot the full state is emitted and the counter set to 1.
Otherwise: empty delta → emit nothing, keep state; non-empty → bump the
counter, stamp it on the delta, store the snapshot, and emit a Full snapshot
instead of the delta when more than half of all panes changed. -/
def toStateUpdate : Option TmuxState → Nat → TmuxState →
    Option TmuxState × Nat × Option StateUpdate
  | none, _, current => (some current, 1, some (.full current))
  | some prev, delta_seq, current =>
    let delta := computeDelta prev current
    if delta.isEmpty then (some prev, delta_seq, none)
    else
      let seq' := delta_seq + 1
      let total_panes := current.panes.length
      let changed := ((delta.panes.map List.length).getD 0)
        + ((delta.new_panes.map List.length).getD 0)
      if 0 < total_panes ∧ total_panes / 2 < changed then
        (some current, seq', some (.full current))
      else
        (some current, seq', some (.delta { delta with seq := seq' }))

/-! ## Session registry (sse.rs) -/

/-- The per-session registry entry fields that attach/detach/set_client_size
touch (`SessionConnections`): connection ids, viewport per connection, last
applied resize. -/
structure SessionEntry where
  connections : List Nat
  client_sizes : List (Nat × (Nat × Nat))
  last_resize : Option (Nat × Nat)
deriving DecidableEq

/-- `HashMap::remove` (returning only the map). -/
def alRemove {α β : Type} [DecidableEq α] (m : List (α × β)) (k : α) : List (α × β) :=
  m.filter (fun kv => !(kv.1 == k))

/-- `.min().unwrap_or(d)` over a list. -/
def natMinD (l : List Nat) (d : Nat) : Nat :=
  match l with
  | [] => d
  | x :: xs => xs.foldl Nat.min x

/-- `compute_min_client_size`: minimum cols and rows over all client
viewports, defaulting to 80x24. -/
def computeMinClientSize (sizes : List (Nat × (Nat × Nat))) : Nat × Nat :=
  (natMinD (sizes.map (fun s => s.2.1)) 80, natMinD (sizes.map (fun s => s.2.2)) 24)

/-- `set_client_size`: store the viewport, compute the minimum; skip the
resize when it equals the last applied one, otherwise record and emit it
(the monitor channel is assumed available — channel failure handling is
concurrency outside this model). -/
def setClientSize (e : SessionEntry) (conn cols rows : Nat) :
    SessionEntry × Option (Nat × Nat) :=
  let sizes := alInsert e.client_sizes conn (cols, rows)
  let m := computeMinClientSize sizes
  if e.last_resize = some m then
    ({ e with client_sizes := sizes }, none)
  else
    ({ e with client_sizes := sizes, last_resize := some m }, some m)

/-- `cleanup_connection`: drop the connection and its viewport; with no
connections left the session entry is removed (monitor shutdown, no resize);
otherwise, if the connection had a viewport and clients remain, record and
emit the recomputed minimum — unconditionally, with no comparison against the
previous `last_resize`. -/
def cleanupConnection (e : SessionEntry) (conn : Nat) :
    Option SessionEntry × Option (Nat × Nat) :=
  let conns := e.connections.filter (fun id => !(id == conn))
  let had_size := alContains e.client_sizes conn
  let sizes := alRemove e.client_sizes conn
  if conns = [] then (none, none)
  else if had_size ∧ sizes ≠ [] then
    let m := computeMinClientSize sizes
    (some { connections := conns, client_sizes := sizes, last_resize := some m }, some m)
  else
    (some { connections := conns, client_sizes := sizes, last_resize := e.last_resize }, none)

/-- Client attach (`sse_handler`): append the connection id; the viewport
arrives via a later `set_client_size`. -/
def attachConn (e : SessionEntry) (conn : Nat) : SessionEntry :=
  { e with connections := e.connections ++ [conn] }

inductive RegistryOp where
  | attach (conn : Nat)
  | setSize (conn cols rows : Nat)
  | detach (conn : Nat)
deriving DecidableEq

/-- One registry operation; the emitted resize commands are collected.  A
detach that removes the last client removes the entry; a later attach starts
from a fresh entry, which the fresh `SessionEntry` models. -/
def registryStep (e : SessionEntry) : RegistryOp → SessionEntry × List (Nat × Nat)
  | .attach c => (attachConn e c, [])
  | .setSize c w h =>
    let r := setClientSize e c w h
    (r.1, r.2.toList)
  | .detach c =>
    let r := cleanupConnection e c
    (r.1.getD ⟨[], [], none⟩, r.2.toList)

/-- Run a sequence of registry operations from an entry, collecting every
emitted resize in order. -/
def registryRun (e : SessionEntry) : List RegistryOp → SessionEntry × List (Nat × Nat)
  | [] => (e, [])
  | op :: ops =>
    let s := registryStep e op
    let r := registryRun s.1 ops
    (r.1, s.2 ++ r.2)

/-! ## Command routing (sse.rs) -/

/-- The `run_tmux_command` arm of `handle_command`: a command starting with
`resize-window` or `resizew` is blocked — not forwarded — and the arm returns
`Ok(null)`; otherwise the command is forwarded when a monitor channel exists,
else an error is returned.  The first component is the command forwarded to
the monitor, if any. -/
def runTmuxCommandArm (command : String) (hasMonitor : Bool) :
    Option String × Except String Unit :=
  if strStarts command "resize-window" || strStarts command "resizew" then
    (none, .ok ())
  else if hasMonitor then (some command, .ok ())
  else (none, .error "No monitor connection available")

/-- `commands_handler`: `Ok` becomes HTTP 200, `Err` becomes 400
(BAD_REQUEST). -/
def commandStatus : Except String Unit → Nat
  | .ok _ => 200
  | .error _ => 400

/-! ## Theorems -/

theorem isOctalDigit_iff {n : Nat} : isOctalDigit n = true ↔ 48 ≤ n ∧ n ≤ 55 := by
  simp [isOctalDigit]

/-- Prepending a non-backslash byte never forms an escape. -/
theorem decodeOctal_cons_ne {b : Nat} (hb : b ≠ 92) (l : List Nat) :
    decodeOctal (b :: l) = b :: decodeOctal l := by
  match l with
  | [] => simp [decodeOctal]
  | [a] => simp [decodeOctal]
  | [a, c] => simp [decodeOctal]
  | d1 :: d2 :: d3 :: rest => simp [decodeOctal, hb]

theorem decode_encode (raw : List Nat) (h : ∀ b ∈ raw, b ≤ 255) :
    decodeOctal (encodeOctal raw) = raw := by
  induction raw with
  | nil => simp [encodeOctal, decodeOctal]
  | cons b rest ih =>
    have hb : b ≤ 255 := h b (by simp)
    have hrest := ih fun x hx => h x (by simp [hx])
    by_cases hesc : b < 32 ∨ b = 92
    · have henc : encodeOctal (b :: rest) =
          92 :: (48 + b / 64) :: (48 + b / 8 % 8) :: (48 + b % 8) :: encodeOctal rest := by
        simp [encodeOctal, encodeByte, hesc]
      rw [henc, decodeOctal]
      rw [if_pos]
      · have hval : octVal (48 + b / 64) (48 + b / 8 % 8) (48 + b % 8) = b := by
          simp only [octVal, Nat.add_sub_cancel_left]
          omega
        rw [hval, hrest]
      · refine ⟨rfl, ?_, ?_, ?_, ?_⟩
        · exact isOctalDigit_iff.mpr (by omega)
        · exact isOctalDigit_iff.mpr (by omega)
        · exact isOctalDigit_iff.mpr (by omega)
        · simp only [octVal, Nat.add_sub_cancel_left]; omega
    · have henc : encodeOctal (b :: rest) = b :: encodeOctal rest := by
        simp [encodeOctal, encodeByte, hesc]
      rw [henc, decodeOctal_cons_ne (fun hc => hesc (Or.inr hc)), hrest]

/-- C3: decoding the tmux octal encoding of any byte string recovers it
exactly; an escape with a non-octal digit or a value above 255 is passed
through literally without being consumed; a truncated escape (fewer than three
digits after the backslash) is passed through byte for byte. -/
theorem decode_octal_roundtrip_and_passthrough :
    (∀ raw : List Nat, (∀ b ∈ raw, b ≤ 255) → decodeOctal (encodeOctal raw) = raw)
    ∧ (∀ d1 d2 d3 : Nat, ∀ rest : List Nat,
        ¬(isOctalDigit d1 ∧ isOctalDigit d2 ∧ isOctalDigit d3 ∧ octVal d1 d2 d3 ≤ 255) →
        decodeOctal (92 :: d1 :: d2 :: d3 :: rest) = 92 :: decodeOctal (d1 :: d2 :: d3 :: rest))
    ∧ (∀ tail : List Nat, tail.length < 3 → decodeOctal (92 :: tail) = 92 :: tail) := by
  refine ⟨decode_encode, ?_, ?_⟩
  · intro d1 d2 d3 rest hbad
    rw [decodeOctal, if_neg]
    intro hc
    exact hbad ⟨hc.2.1, hc.2.2.1, hc.2.2.2.1, hc.2.2.2.2⟩
  · intro tail htail
    match tail, htail with
    | [], _ => simp [decodeOctal]
    | [a], _ =>
      by_cases ha : a = 92
      · subst ha; simp [decodeOctal]
      · simp [decodeOctal, decodeOctal_cons_ne ha]
    | [a, c], _ =>
      by_cases ha : a = 92
      · subst ha
        by_cases hc : c = 92
        · subst hc; simp [decodeOctal]
        · simp [decodeOctal, decodeOctal_cons_ne hc]
      · by_cases hc : c = 92
        · subst hc; simp [decodeOctal, decodeOctal_cons_ne ha]
        · simp [decodeOctal, decodeOctal_cons_ne ha, decodeOctal_cons_ne hc]

theorem append_nl_not_empty (a x : String) : (a ++ "\n" ++ x).isEmpty = false := by
  rw [Bool.eq_false_iff]
  intro h
  have hl := congrArg String.length ((String.isEmpty_iff _).mp h)
  simp [String.length_append] at hl
  exact absurd hl.1.2 (by decide)

/-- Feeding non-control lines while in response mode keeps the parser in
response mode, accumulates the buffer with newline separators, and yields no
events. -/
theorem run_in_response (ts n : Nat) (b : String) (ls : List String)
    (hls : ∀ l ∈ ls, NonControl l) :
    Parser.run ⟨true, b, ts, n⟩ ls =
      (⟨true, appendAll b ls, ts, n⟩, ls.map (fun _ => none)) := by
  induction ls generalizing b with
  | nil => simp [Parser.run, appendAll]
  | cons l ls ih =>
    have hl := hls l (by simp)
    have hrest : ∀ x ∈ ls, NonControl x := fun x hx => hls x (by simp [hx])
    simp only [Parser.run, Parser.parseLine, hl.1, hl.2.1, hl.2.2, Bool.false_eq_true,
      if_false, if_true, ih _ hrest]
    simp [appendAll]

theorem appendAll_of_ne_empty (b : String) (hb : b.isEmpty = false) (ls : List String) :
    appendAll b ls = joinNL (b :: ls) := by
  induction ls generalizing b with
  | nil => simp [appendAll, joinNL]
  | cons l ls ih =>
    have h1 : appendAll b (l :: ls) = appendAll (b ++ "\n" ++ l) ls := by
      simp [appendAll, hb]
    rw [h1, ih _ (append_nl_not_empty b l)]
    cases ls with
    | nil => simp [joinNL]
    | cons y ys => simp [joinNL, String.append_assoc]

theorem appendAll_empty (ls : List String) :
    appendAll "" ls = joinNL (ls.dropWhile String.isEmpty) := by
  induction ls with
  | nil => simp [appendAll, joinNL]
  | cons l ls ih =>
    by_cases hl : l.isEmpty
    · have : l = "" := (String.isEmpty_iff l).mp hl
      subst this
      simpa [appendAll, List.dropWhile] using ih
    · rw [List.dropWhile_cons_of_neg (by simpa using hl)]
      have h1 : appendAll "" (l :: ls) = appendAll l ls := by
        simp [appendAll, show "".isEmpty = true from rfl]
      rw [h1, appendAll_of_ne_empty l (by simpa using hl)]

theorem run_nil (p : Parser) : p.run [] = (p, []) := rfl

theorem run_cons (p : Parser) (l : String) (ls : List String) :
    p.run (l :: ls) =
      (((p.parseLine l).1.run ls).1, (p.parseLine l).2 :: ((p.parseLine l).1.run ls).2) := rfl

theorem run_append (p : Parser) (as bs : List String) :
    p.run (as ++ bs) = (((p.run as).1.run bs).1, (p.run as).2 ++ ((p.run as).1.run bs).2) := by
  induction as generalizing p with
  | nil => simp [run_nil]
  | cons a as ih => simp [run_cons, ih]

/-- C4 (amended): a `%begin ts n flags` line, followed by non-control lines
L1..Lk, followed by a `%end`/`%error` terminator, produces no event for any
line but the terminator and exactly one CommandResponse carrying command
number n and, as output, L1..Lk joined by single newlines after dropping any
leading empty lines (the code skips the separator while the buffer is still
empty, so leading empty lines leave no trace). -/
theorem parser_response_block (bLine eLine rLine : String) (Ls : List String) (ts n : Nat)
    (hb : strStarts bLine "%begin ")
    (hbp : (splitWs bLine).length ≥ 3)
    (hts : parseNatOr0 ((splitWs bLine).getD 1 "") = ts)
    (hn : parseNatOr0 ((splitWs bLine).getD 2 "") = n)
    (hLs : ∀ l ∈ Ls, NonControl l)
    (he1 : ¬strStarts eLine "%begin ") (he2 : strStarts eLine "%end ")
    (hr1 : ¬strStarts rLine "%begin ") (hr2 : ¬strStarts rLine "%end ")
    (hr3 : strStarts rLine "%error ") :
    Parser.run Parser.new (bLine :: Ls ++ [eLine]) =
      (Parser.mk false "" ts n,
        none :: Ls.map (fun _ => none)
          ++ [some (.commandResponse ts n (joinNL (Ls.dropWhile String.isEmpty)) true)])
    ∧ Parser.run Parser.new (bLine :: Ls ++ [rLine]) =
      (Parser.mk false "" ts n,
        none :: Ls.map (fun _ => none)
          ++ [some (.commandResponse ts n (joinNL (Ls.dropWhile String.isEmpty)) false)]) := by
  have hbegin : Parser.parseLine Parser.new bLine = (Parser.mk true "" ts n, none) := by
    simp only [Parser.parseLine, hb, if_true, Parser.handleBegin]
    rw [if_pos hbp, hts, hn]
  have hmid := run_in_response ts n "" Ls hLs
  have hbuf : appendAll "" Ls = joinNL (Ls.dropWhile String.isEmpty) := appendAll_empty Ls
  constructor
  · have hlast : Parser.parseLine (Parser.mk true (appendAll "" Ls) ts n) eLine =
        (Parser.mk false "" ts n,
          some (.commandResponse ts n (appendAll "" Ls) true)) := by
      simp only [Parser.parseLine, he1, Bool.false_eq_true, if_false, he2, if_true,
        Parser.handleEnd]
    rw [hbuf] at hlast
    rw [show bLine :: Ls ++ [eLine] = bLine :: (Ls ++ [eLine]) from rfl,
      run_cons, hbegin, run_append, hmid]
    simp [run_cons, hlast, run_nil, hbuf]
  · have hlast : Parser.parseLine (Parser.mk true (appendAll "" Ls) ts n) rLine =
        (Parser.mk false "" ts n,
          some (.commandResponse ts n (appendAll "" Ls) false)) := by
      simp only [Parser.parseLine, hr1, hr2, Bool.false_eq_true, if_false, hr3, if_true,
        Parser.handleEnd]
    rw [hbuf] at hlast
    rw [show bLine :: Ls ++ [rLine] = bLine :: (Ls ++ [rLine]) from rfl,
      run_cons, hbegin, run_append, hmid]
    simp [run_cons, hlast, run_nil, hbuf]

/-- Witness for C4 (amended) at a concrete block. -/
theorem parser_response_block_witness :
    Parser.run Parser.new ["%begin 7 3 0", "x", "y", "%end 7 3 0"] =
      (Parser.mk false "" 7 3, [none, none, none,
        some (.commandResponse 7 3 (joinNL (["x", "y"].dropWhile String.isEmpty)) true)]) :=
  (parser_response_block "%begin 7 3 0" "%end 7 3 0" "%error 7 3 0" ["x", "y"] 7 3
    (by decide) (by decide) (by decide) (by decide) (by decide)
    (by decide) (by decide) (by decide) (by decide) (by decide)).1

/-- C4 counterexample to the claim as stated: with a leading empty line the
emitted output is not the newline-join of the block lines — the block
["", "a"] yields output "a", not "\na". -/
theorem parser_block_join_counterexample :
    (Parser.run Parser.new ["%begin 10 2 1", "", "a", "%end 10 2 1"]).2 =
      [none, none, none, some (.commandResponse 10 2 "a" true)]
    ∧ joinNL ["", "a"] = "\na" ∧ "a" ≠ "\na" := by
  refine ⟨by decide, by decide, by decide⟩

theorem parseLine_inv (p : Parser) (l : String) (h : ParserInv p) :
    ParserInv (p.parseLine l).1 := by
  unfold Parser.parseLine
  by_cases h1 : strStarts l "%begin "
  · simp only [h1, if_true, Parser.handleBegin]
    by_cases h2 : (splitWs l).length ≥ 3
    · rw [if_pos h2]; intro _; rfl
    · rw [if_neg h2]; exact h
  · by_cases h2 : strStarts l "%end "
    · simp only [h1, Bool.false_eq_true, if_false, h2, if_true, Parser.handleEnd]
      intro _; rfl
    · by_cases h3 : strStarts l "%error "
      · simp only [h1, h2, Bool.false_eq_true, if_false, h3, if_true, Parser.handleEnd]
        intro _; rfl
      · by_cases h4 : p.in_response
        · simp only [h1, h2, h3, Bool.false_eq_true, if_false, h4, if_true]
          intro hc; exact absurd hc (by simp [h4])
        · by_cases h5 : strStarts l "%"
          · simp only [h1, h2, h3, h4, Bool.false_eq_true, if_false, h5, if_true]
            exact h
          · simp only [h1, h2, h3, h4, h5, Bool.false_eq_true, if_false]
            exact h

theorem run_inv (p : Parser) (ls : List String) (h : ParserInv p) :
    ParserInv (p.run ls).1 := by
  induction ls generalizing p with
  | nil => exact h
  | cons l ls ih => rw [run_cons]; exact ih _ (parseLine_inv p l h)

/-- C10: an unmatched `%end`/`%error` terminator (the parser is not inside a
response block) still emits a CommandResponse — success for `%end`, failure
for `%error` — with empty output and whatever timestamp and command number
were last stored (0 on a fresh parser, as the witness shows). -/
theorem parser_unmatched_terminator (ls : List String) (lineE lineR : String)
    (he1 : ¬strStarts lineE "%begin ") (he2 : strStarts lineE "%end ")
    (hr1 : ¬strStarts lineR "%begin ") (hr2 : ¬strStarts lineR "%end ")
    (hr3 : strStarts lineR "%error ")
    (hopen : ((Parser.run Parser.new ls).1).in_response = false) :
    (Parser.parseLine (Parser.run Parser.new ls).1 lineE).2 =
      some (.commandResponse (Parser.run Parser.new ls).1.response_timestamp
        (Parser.run Parser.new ls).1.response_command_num "" true)
    ∧ (Parser.parseLine (Parser.run Parser.new ls).1 lineR).2 =
      some (.commandResponse (Parser.run Parser.new ls).1.response_timestamp
        (Parser.run Parser.new ls).1.response_command_num "" false) := by
  have hbuf : (Parser.run Parser.new ls).1.response_buffer = "" :=
    run_inv Parser.new ls (fun _ => rfl) hopen
  constructor
  · simp only [Parser.parseLine, he1, Bool.false_eq_true, if_false, he2, if_true,
      Parser.handleEnd, hbuf]
  · simp only [Parser.parseLine, hr1, hr2, Bool.false_eq_true, if_false, hr3, if_true,
      Parser.handleEnd, hbuf]

/-- Witness for C10 on a fresh parser: timestamp and command number are 0. -/
theorem parser_unmatched_terminator_witness :
    (Parser.parseLine (Parser.run Parser.new []).1 "%end 99 5 0").2 =
      some (.commandResponse 0 0 "" true)
    ∧ (Parser.parseLine (Parser.run Parser.new []).1 "%error 99 5 0").2 =
      some (.commandResponse 0 0 "" false) :=
  parser_unmatched_terminator [] "%end 99 5 0" "%error 99 5 0"
    (by decide) (by decide) (by decide) (by decide) (by decide) rfl

/-- The terminator scan passes over payload bytes that are neither BEL nor
ESC and stops at the first BEL. -/
theorem scanOsc_payload_bel (payload : List Nat) (h : ∀ b ∈ payload, b ≠ 7 ∧ b ≠ 27) :
    ∀ (i : Nat) (acc tail : List Nat),
      scanOsc (payload ++ 7 :: tail) i acc = some (i + payload.length + 1, acc.reverse ++ payload) := by
  induction payload with
  | nil => intro i acc tail; simp [scanOsc]
  | cons b payload ih =>
    intro i acc tail
    have hb := h b (by simp)
    have hrest : ∀ x ∈ payload, x ≠ 7 ∧ x ≠ 27 := fun x hx => h x (by simp [hx])
    simp only [List.cons_append, scanOsc, hb.2, false_and, if_false, hb.1, if_false,
      List.length_cons]
    show scanOsc (payload ++ 7 :: tail) (i + 1) (b :: acc) =
      some (i + (payload.length + 1) + 1, acc.reverse ++ b :: payload)
    rw [ih hrest (i + 1) (b :: acc) tail]
    simp only [List.reverse_cons, List.append_assoc, List.singleton_append, Option.some.injEq,
      Prod.mk.injEq]
    exact ⟨by omega, trivial⟩

/-- Processing `ESC ]` followed by a BEL-terminated payload consumes the whole
sequence, feeds the payload to `parse_osc`, and copies nothing to the
output. -/
theorem processGo_osc (p : OscParser) (payload tail acc : List Nat)
    (h : ∀ b ∈ payload, b ≠ 7 ∧ b ≠ 27) :
    OscParser.processGo p (27 :: 93 :: (payload ++ 7 :: tail)) acc =
      OscParser.processGo (p.parseOsc payload) tail acc := by
  have hscan := scanOsc_payload_bel payload h 2 [] tail
  have hdrop : List.drop (2 + payload.length) (93 :: (payload ++ 7 :: tail)) = tail := by
    rw [show 2 + payload.length = (payload.length + 1) + 1 from by omega, List.drop_succ_cons,
      show payload ++ 7 :: tail = (payload ++ [7]) ++ tail from by simp,
      show payload.length + 1 = (payload ++ [7]).length from by simp, List.drop_left]
  rw [OscParser.processGo]
  simp only [List.head?_cons, findOscEnd, hscan, List.reverse_nil, List.nil_append]
  simp [hdrop]

/-- C7: processing `ESC ] 8 ; ; URL BEL  a b c  ESC ] 8 ; ; BEL` through a
fresh OSC parser hands exactly the bytes `abc` to the emulator (both OSC
sequences stripped), and afterwards cells (0,0), (0,1), (0,2) map to URL while
(0,3) maps to nothing, for any non-empty printable-ASCII URL. -/
theorem osc8_cell_mapping (url : List Nat) (hne : url ≠ [])
    (hpr : ∀ b ∈ url, 32 ≤ b ∧ b < 127) :
    (OscParser.new.process
        ([27, 93, 56, 59, 59] ++ url ++ [7, 97, 98, 99, 27, 93, 56, 59, 59, 7])).2
      = [97, 98, 99]
    ∧ alLookup (OscParser.new.process
        ([27, 93, 56, 59, 59] ++ url ++ [7, 97, 98, 99, 27, 93, 56, 59, 59, 7])).1.cell_urls
        (0, 0) = some url
    ∧ alLookup (OscParser.new.process
        ([27, 93, 56, 59, 59] ++ url ++ [7, 97, 98, 99, 27, 93, 56, 59, 59, 7])).1.cell_urls
        (0, 1) = some url
    ∧ alLookup (OscParser.new.process
        ([27, 93, 56, 59, 59] ++ url ++ [7, 97, 98, 99, 27, 93, 56, 59, 59, 7])).1.cell_urls
        (0, 2) = some url
    ∧ alLookup (OscParser.new.process
        ([27, 93, 56, 59, 59] ++ url ++ [7, 97, 98, 99, 27, 93, 56, 59, 59, 7])).1.cell_urls
        (0, 3) = none := by
  have hp7 : ∀ b ∈ [56, 59, 59] ++ url, b ≠ 7 ∧ b ≠ 27 := by
    intro b hb
    rcases List.mem_append.mp hb with h | h
    · simp at h; rcases h with rfl | rfl | rfl <;> simp
    · have := hpr b h; omega
  have hshape : [27, 93, 56, 59, 59] ++ url ++ [7, 97, 98, 99, 27, 93, 56, 59, 59, 7]
      = 27 :: 93 :: (([56, 59, 59] ++ url) ++ 7 :: [97, 98, 99, 27, 93, 56, 59, 59, 7]) := by
    simp
  have hparse1 : OscParser.new.parseOsc ([56, 59, 59] ++ url) =
      { OscParser.new with
          active_hyperlink := some (url, none)
          hyperlink_start := some (0, 0) } := by
    simp [OscParser.parseOsc, dropPfx, OscParser.parseOsc8, splitFirst, hne, findOsc8Id,
      splitList, OscParser.finalizeHyperlink, OscParser.new]
  have hrun : OscParser.new.process
      ([27, 93, 56, 59, 59] ++ url ++ [7, 97, 98, 99, 27, 93, 56, 59, 59, 7]) =
      ({ active_hyperlink := none, hyperlink_start := none, cursor_row := 0, cursor_col := 3,
         hyperlinks := [⟨0, 0, 0, 3, url, none⟩], pending_clipboard := none,
         cell_urls := [((0, 0), url), ((0, 1), url), ((0, 2), url)] }, [97, 98, 99]) := by
    unfold OscParser.process
    rw [hshape, processGo_osc _ _ _ _ hp7, hparse1]
    simp [OscParser.processGo, OscParser.handleByte, OscParser.parseOsc, OscParser.parseOsc8,
      splitFirst, dropPfx, findOsc8Id, splitList, OscParser.finalizeHyperlink, alInsert,
      findOscEnd, scanOsc, OscParser.new]
    decide
  refine ⟨?_, ?_, ?_, ?_, ?_⟩ <;> rw [hrun] <;> simp [alLookup] <;> decide

/-- Witness for C7 with the one-byte URL `u`. -/
theorem osc8_cell_mapping_witness :
    (OscParser.new.process
        ([27, 93, 56, 59, 59] ++ [117] ++ [7, 97, 98, 99, 27, 93, 56, 59, 59, 7])).2
      = [97, 98, 99]
    ∧ alLookup (OscParser.new.process
        ([27, 93, 56, 59, 59] ++ [117] ++ [7, 97, 98, 99, 27, 93, 56, 59, 59, 7])).1.cell_urls
        (0, 0) = some [117]
    ∧ alLookup (OscParser.new.process
        ([27, 93, 56, 59, 59] ++ [117] ++ [7, 97, 98, 99, 27, 93, 56, 59, 59, 7])).1.cell_urls
        (0, 1) = some [117]
    ∧ alLookup (OscParser.new.process
        ([27, 93, 56, 59, 59] ++ [117] ++ [7, 97, 98, 99, 27, 93, 56, 59, 59, 7])).1.cell_urls
        (0, 2) = some [117]
    ∧ alLookup (OscParser.new.process
        ([27, 93, 56, 59, 59] ++ [117] ++ [7, 97, 98, 99, 27, 93, 56, 59, 59, 7])).1.cell_urls
        (0, 3) = none :=
  osc8_cell_mapping [117] (by decide) (by decide)

/-- Witness for C3 at concrete inputs: the bytes ESC, backslash, letter A
round-trip; the invalid escape sequence backslash-8-9-A passes through; the
truncated escape backslash-0 passes through. -/
theorem decode_octal_roundtrip_and_passthrough_witness :
    decodeOctal (encodeOctal [27, 92, 65]) = [27, 92, 65]
    ∧ decodeOctal [92, 56, 57, 65] = 92 :: decodeOctal [56, 57, 65]
    ∧ decodeOctal [92, 48] = [92, 48] :=
  ⟨decode_octal_roundtrip_and_passthrough.1 [27, 92, 65] (by decide),
   decode_octal_roundtrip_and_passthrough.2.1 56 57 65 [] (by decide),
   decode_octal_roundtrip_and_passthrough.2.2 [48] (by decide)⟩

theorem alLookup_insert_self {α β : Type} [DecidableEq α] (m : List (α × β)) (k : α) (v : β) :
    alLookup (alInsert m k v) k = some v := by
  induction m with
  | nil => simp [alInsert, alLookup]
  | cons kv rest ih =>
    by_cases h : kv.1 = k
    · simp [alInsert, h, alLookup]
    · simp [alInsert, h, alLookup, ih]

theorem alLookup_insert_ne {α β : Type} [DecidableEq α] (m : List (α × β)) (k k' : α) (v : β)
    (h : k ≠ k') : alLookup (alInsert m k v) k' = alLookup m k' := by
  induction m with
  | nil => simp [alInsert, alLookup, h]
  | cons kv rest ih =>
    by_cases hk : kv.1 = k
    · simp [alInsert, hk, alLookup, h]
    · simp [alInsert, hk, alLookup, ih]

theorem alLookup_eq_none {α β : Type} [DecidableEq α] (m : List (α × β)) (k : α) :
    k ∉ m.map Prod.fst → alLookup m k = none := by
  induction m with
  | nil => intro _; simp [alLookup]
  | cons kv rest ih =>
    intro h
    simp only [List.map_cons, List.mem_cons] at h
    push_neg at h
    have h1 : ¬kv.1 = k := fun hc => h.1 hc.symm
    simp [alLookup, h1, ih h.2]

theorem keys_alInsert {α β : Type} [DecidableEq α] (m : List (α × β)) (k : α) (v : β) :
    (alInsert m k v).map Prod.fst = m.map Prod.fst
      ∨ (alInsert m k v).map Prod.fst = m.map Prod.fst ++ [k] := by
  induction m with
  | nil => simp [alInsert]
  | cons kv rest ih =>
    by_cases h : kv.1 = k
    · left; simp [alInsert, h]
    · rcases ih with ih | ih
      · left; simp [alInsert, h, ih]
      · right; simp [alInsert, h, ih]

theorem nodup_alInsert {α β : Type} [DecidableEq α] (m : List (α × β)) (k : α) (v : β) :
    (m.map Prod.fst).Nodup → ((alInsert m k v).map Prod.fst).Nodup := by
  induction m with
  | nil => intro _; simp [alInsert]
  | cons kv rest ih =>
    intro hnd
    simp only [List.map_cons, List.nodup_cons] at hnd
    by_cases h : kv.1 = k
    · rw [alInsert, if_pos h]
      simp only [List.map_cons, List.nodup_cons]
      exact ⟨h ▸ hnd.1, hnd.2⟩
    · rw [alInsert, if_neg h]
      simp only [List.map_cons, List.nodup_cons]
      refine ⟨?_, ih hnd.2⟩
      rcases keys_alInsert rest k v with hk | hk
      · rw [hk]; exact hnd.1
      · rw [hk]; simp [hnd.1, h]

theorem alLookup_filter_none {α β : Type} [DecidableEq α] (m : List (α × β))
    (pred : α × β → Bool) (k : α) :
    alLookup m k = none → alLookup (m.filter pred) k = none := by
  induction m with
  | nil => intro _; simp [alLookup]
  | cons kv rest ih =>
    intro h
    rw [alLookup] at h
    by_cases hk : kv.1 = k
    · rw [if_pos hk] at h; exact absurd h (by simp)
    · rw [if_neg hk] at h
      cases hp : pred kv with
      | true => rw [List.filter_cons, if_pos (by simp [hp]), alLookup, if_neg hk]; exact ih h
      | false => rw [List.filter_cons, if_neg (by simp [hp])]; exact ih h

theorem alLookup_filter {α β : Type} [DecidableEq α] (m : List (α × β))
    (pred : α × β → Bool) (k : α) (v : β) :
    (m.map Prod.fst).Nodup → alLookup m k = some v →
    alLookup (m.filter pred) k = if pred (k, v) then some v else none := by
  induction m with
  | nil => intro _ h; exact absurd h (by simp [alLookup])
  | cons kv rest ih =>
    intro hnd h
    simp only [List.map_cons, List.nodup_cons] at hnd
    rw [alLookup] at h
    by_cases hk : kv.1 = k
    · rw [if_pos hk] at h
      have hkv : kv = (k, v) := by
        rcases kv with ⟨a, b⟩
        simp only at hk
        simp only [Option.some.injEq] at h
        rw [hk] at hnd ⊢
        rw [h]
      subst hkv
      have hnone : alLookup rest k = none := alLookup_eq_none rest k hnd.1
      cases hp : pred (k, v) with
      | true =>
        rw [List.filter_cons, if_pos (by simp [hp]), alLookup, if_pos rfl]
        simp
      | false =>
        rw [List.filter_cons, if_neg (by simp [hp]), alLookup_filter_none rest pred k hnone]
        simp
    · rw [if_neg hk] at h
      cases hp : pred kv with
      | true =>
        rw [List.filter_cons, if_pos (by simp [hp]), alLookup, if_neg hk]
        exact ih hnd.2 h
      | false =>
        rw [List.filter_cons, if_neg (by simp [hp])]
        exact ih hnd.2 h

/-- The pane written by `applyListPanesLine` sits at the line's pane id and
carries the line's window id, dimensions and tmux cursor. -/
theorem applyListPanesLine_fields (panes : PaneMap) (d : LineData) :
    ∃ p, (applyListPanesLine panes d).1 = alInsert panes d.pane_id p
      ∧ (applyListPanesLine panes d).2.1 = d.pane_id
      ∧ p.window_id = d.window_id ∧ p.width = d.width ∧ p.height = d.height
      ∧ p.tmux_cursor_x = d.cursor_x ∧ p.tmux_cursor_y = d.cursor_y := by
  have hrz : ∀ q : PaneState, (q.resize d.width d.height).1.width = d.width
      ∧ (q.resize d.width d.height).1.height = d.height := by
    intro q
    unfold PaneState.resize
    by_cases hc : q.width ≠ d.width ∨ q.height ≠ d.height
    · rw [if_pos hc]
      exact ⟨rfl, rfl⟩
    · rw [if_neg hc]
      push_neg at hc
      exact ⟨hc.1, hc.2⟩
  refine ⟨_, rfl, rfl, ?_, ?_, ?_, ?_, ?_⟩ <;> split <;>
    first
      | rfl
      | exact (hrz _).1
      | exact (hrz _).2

/-- The list-panes pass over well-formed lines: seen ids are exactly the ids
of the lines; entries at other keys are untouched; every seen id maps to a
pane with a non-empty window id; key nodup is preserved; at least one line
makes it a list-panes response. -/
theorem panesLoop_spec (lines : List String) : ∀ panes : PaneMap,
    (∀ l ∈ lines, GoodLine l) →
    (panesLoop panes lines).seen = idsOfLines lines
    ∧ (∀ k, k ∉ idsOfLines lines →
        alLookup (panesLoop panes lines).panes k = alLookup panes k)
    ∧ (∀ k, k ∈ idsOfLines lines →
        ∃ p, alLookup (panesLoop panes lines).panes k = some p ∧ p.window_id ≠ "")
    ∧ ((panes.map Prod.fst).Nodup → ((panesLoop panes lines).panes.map Prod.fst).Nodup)
    ∧ (lines ≠ [] → (panesLoop panes lines).isListPanes = true) := by
  induction lines with
  | nil =>
    intro panes _
    refine ⟨rfl, fun k _ => rfl, ?_, fun h => h, fun h => absurd rfl h⟩
    intro k hk
    exact absurd hk (by simp [idsOfLines])
  | cons l rest ih =>
    intro panes hgood
    obtain ⟨hc1, hc2, d, hd, hw⟩ := hgood l (by simp)
    have hrest : ∀ x ∈ rest, GoodLine x := fun x hx => hgood x (by simp [hx])
    obtain ⟨p, hmap, hpid, hpw, _, _, _, _⟩ := applyListPanesLine_fields panes d
    have hparse : parseListPanesLine panes l = some (applyListPanesLine panes d) := by
      simp [parseListPanesLine, hd]
    have hstep : panesLoop panes (l :: rest) =
        ⟨(panesLoop (applyListPanesLine panes d).1 rest).panes,
         (applyListPanesLine panes d).2.1 :: (panesLoop (applyListPanesLine panes d).1 rest).seen,
         (if (applyListPanesLine panes d).2.2 then [(applyListPanesLine panes d).2.1] else [])
           ++ (panesLoop (applyListPanesLine panes d).1 rest).resized,
         true⟩ := by
      rw [panesLoop, if_pos ⟨hc1, hc2⟩, hparse]
    have hids : idsOfLines (l :: rest) = d.pane_id :: idsOfLines rest := by
      simp [idsOfLines, hd]
    obtain ⟨ihseen, ihunch, ihin, ihnod, _⟩ := ih (applyListPanesLine panes d).1 hrest
    refine ⟨?_, ?_, ?_, ?_, ?_⟩
    · rw [hstep, hids]
      simp only []
      rw [hpid, ihseen]
    · intro k hk
      rw [hids] at hk
      simp only [List.mem_cons, not_or] at hk
      rw [hstep]
      simp only []
      rw [ihunch k hk.2, hmap, alLookup_insert_ne _ _ _ _ (fun hc => hk.1 hc.symm)]
    · intro k hk
      rw [hstep]
      simp only []
      by_cases hkr : k ∈ idsOfLines rest
      · exact ihin k hkr
      · have hkd : k = d.pane_id := by
          rw [hids] at hk
          rcases List.mem_cons.mp hk with h | h
          · exact h
          · exact absurd h hkr
        subst hkd
        rw [ihunch _ hkr, hmap, alLookup_insert_self]
        exact ⟨p, rfl, hpw ▸ hw⟩
    · intro hnd
      rw [hstep]
      simp only []
      exact ihnod (hmap ▸ nodup_alInsert panes d.pane_id p hnd)
    · intro _
      rw [hstep]

/-- C1: a list-panes response whose lines are well formed (parse successfully
and carry non-empty window ids) synchronizes the pane set: afterwards the
panes with a non-empty window id are exactly the response's pane ids — new
ones created, existing ones updated, absent ones removed — while panes with
an empty window id are retained. -/
theorem list_panes_sync (st : Agg) (output : String)
    (hnd : (st.panes.map Prod.fst).Nodup)
    (hne : rustLines output ≠ [])
    (hgood : ∀ l ∈ rustLines output, GoodLine l) :
    (∀ k, (∃ p, alLookup (handleCommandResponse st output).1.panes k = some p
        ∧ p.window_id ≠ "") ↔ k ∈ paneIdsOf output)
    ∧ (∀ k p, alLookup st.panes k = some p → p.window_id = "" →
        ∃ q, alLookup (handleCommandResponse st output).1.panes k = some q) := by
  obtain ⟨hseen, hunch, hin, hnod, hflag⟩ := panesLoop_spec (rustLines output) st.panes hgood
  have hids_ne : idsOfLines (rustLines output) ≠ [] := by
    cases hl : rustLines output with
    | nil => exact absurd hl hne
    | cons a as =>
      obtain ⟨_, _, d, hd, _⟩ := hgood a (by rw [hl]; simp)
      simp [idsOfLines, hd]
  have hseen_ne : (panesLoop st.panes (rustLines output)).seen ≠ [] := by
    rw [hseen]; exact hids_ne
  have hpanes : (handleCommandResponse st output).1.panes =
      (panesLoop st.panes (rustLines output)).panes.filter
        (fun kv => (panesLoop st.panes (rustLines output)).seen.contains kv.1
          || kv.2.window_id == "") := by
    show (if (panesLoop st.panes (rustLines output)).isListPanes
          ∧ (panesLoop st.panes (rustLines output)).seen ≠ [] then _ else _) = _
    rw [if_pos ⟨hflag hne, hseen_ne⟩]
  have hmem : ∀ k : String, k ∈ (panesLoop st.panes (rustLines output)).seen
      ↔ k ∈ idsOfLines (rustLines output) := by
    intro k; rw [hseen]
  have hndr := hnod hnd
  constructor
  · intro k
    constructor
    · rintro ⟨p, hlook, hwid⟩
      rw [hpanes] at hlook
      by_cases hk : k ∈ idsOfLines (rustLines output)
      · exact hk
      · exfalso
        cases hsp : alLookup st.panes k with
        | none =>
          rw [alLookup_filter_none _ _ _ (by rw [hunch k hk]; exact hsp)] at hlook
          exact Option.noConfusion hlook
        | some q =>
          rw [alLookup_filter _ _ _ q hndr (by rw [hunch k hk]; exact hsp)] at hlook
          by_cases hpred : ((panesLoop st.panes (rustLines output)).seen.contains k
              || q.window_id == "") = true
          · rw [if_pos hpred] at hlook
            cases hlook
            rcases Bool.or_eq_true_iff.mp hpred with hcont | hq
            · exact hk ((hmem k).mp (by simpa using hcont))
            · exact hwid (by simpa using hq)
          · rw [if_neg hpred] at hlook
            exact Option.noConfusion hlook
    · intro hk
      obtain ⟨p, hlp, hpw⟩ := hin k hk
      refine ⟨p, ?_, hpw⟩
      rw [hpanes, alLookup_filter _ _ _ p hndr hlp, if_pos ?_]
      exact Bool.or_eq_true_iff.mpr (Or.inl (by simpa using (hmem k).mpr hk))
  · intro k p hsp hwid
    by_cases hk : k ∈ idsOfLines (rustLines output)
    · obtain ⟨q, hlq, hqw⟩ := hin k hk
      refine ⟨q, ?_⟩
      rw [hpanes, alLookup_filter _ _ _ q hndr hlq, if_pos ?_]
      exact Bool.or_eq_true_iff.mpr (Or.inl (by simpa using (hmem k).mpr hk))
    · refine ⟨p, ?_⟩
      rw [hpanes, alLookup_filter _ _ _ p hndr (by rw [hunch k hk]; exact hsp), if_pos ?_]
      exact Bool.or_eq_true_iff.mpr (Or.inr (by simpa using hwid))

/-- Witness for C1: a fresh aggregator holding a stray empty-window pane plus
a stale pane in window @9, fed a two-line response for %1 and %2: afterwards
exactly %1 and %2 have non-empty window ids and the empty-window pane is
retained. -/
theorem list_panes_sync_witness :
    ((∃ p, alLookup (handleCommandResponse
        ⟨[("%7", PaneState.new "%7" 80 24),
          ("%9", { PaneState.new "%9" 80 24 with window_id := "@9" })], [], none, false⟩
        "%1,0,0,0,80,24,0,0,1,bash,t,0,0,0,@1\n%2,1,0,0,80,24,0,0,0,bash,t,0,0,0,@1").1.panes
        "%1" = some p ∧ p.window_id ≠ "")
      ↔ "%1" ∈ paneIdsOf "%1,0,0,0,80,24,0,0,1,bash,t,0,0,0,@1\n%2,1,0,0,80,24,0,0,0,bash,t,0,0,0,@1")
    ∧ (∀ k p, alLookup [("%7", PaneState.new "%7" 80 24),
          ("%9", { PaneState.new "%9" 80 24 with window_id := "@9" })] k = some p →
        p.window_id = "" →
        ∃ q, alLookup (handleCommandResponse
          ⟨[("%7", PaneState.new "%7" 80 24),
            ("%9", { PaneState.new "%9" 80 24 with window_id := "@9" })], [], none, false⟩
          "%1,0,0,0,80,24,0,0,1,bash,t,0,0,0,@1\n%2,1,0,0,80,24,0,0,0,bash,t,0,0,0,@1").1.panes
          k = some q) := by
  have h := list_panes_sync
    ⟨[("%7", PaneState.new "%7" 80 24),
      ("%9", { PaneState.new "%9" 80 24 with window_id := "@9" })], [], none, false⟩
    "%1,0,0,0,80,24,0,0,1,bash,t,0,0,0,@1\n%2,1,0,0,80,24,0,0,0,bash,t,0,0,0,@1"
    (by decide) (by decide) (by decide)
  exact ⟨h.1 "%1", h.2⟩

/-- C9 counterexample: a list-panes line reporting cursor-x 999 with width 80
is stored verbatim, so the stored tmux cursor violates cursor-x < width. -/
theorem cursor_in_bounds_counterexample :
    (((parseListPanesLine [] "%1,0,0,0,80,24,999,0,1,bash,t,0,0,0,@1").bind
        (fun pr => alLookup pr.1 "%1")).map
        (fun p => (p.width, p.tmux_cursor_x))) = some (80, 999)
    ∧ ¬(999 < 80) := by
  constructor
  · decide
  · decide

/-- C9 (amended): immediately after a list-panes line whose reported cursor
lies within its reported dimensions is applied, the stored authoritative tmux
cursor lies within the pane's dimensions.  (The source stores the reported
values without clamping, so the unconditional claim fails — see the
counterexample; the cursor of the emitted pane record comes from the external
vt100 emulator and is outside this embedding.) -/
theorem cursor_in_bounds_after_line (panes : PaneMap) (d : LineData)
    (hx : d.cursor_x < d.width) (hy : d.cursor_y < d.height) :
    ∃ p, alLookup (applyListPanesLine panes d).1 d.pane_id = some p
      ∧ p.tmux_cursor_x < p.width ∧ p.tmux_cursor_y < p.height := by
  obtain ⟨p, hmap, _, _, hw, hh, hcx, hcy⟩ := applyListPanesLine_fields panes d
  refine ⟨p, ?_, ?_, ?_⟩
  · rw [hmap, alLookup_insert_self]
  · rw [hcx, hw]; exact hx
  · rw [hcy, hh]; exact hy

/-- Witness for C9 (amended) at a concrete line with cursor (5,3) in an 80x24
pane. -/
theorem cursor_in_bounds_after_line_witness :
    ∃ p, alLookup
        (applyListPanesLine []
          { pane_id := "%1", pane_index := 0, x := 0, y := 0, width := 80, height := 24,
            cursor_x := 5, cursor_y := 3, active := true, command := "bash", title := "",
            in_mode := false, copy_cursor_x := 0, copy_cursor_y := 0, window_id := "@1",
            border_title := "", alternate_on := false, mouse_any_flag := false,
            group_id := none, group_tab_index := none }).1 "%1" = some p
      ∧ p.tmux_cursor_x < p.width ∧ p.tmux_cursor_y < p.height :=
  cursor_in_bounds_after_line []
    { pane_id := "%1", pane_index := 0, x := 0, y := 0, width := 80, height := 24,
      cursor_x := 5, cursor_y := 3, active := true, command := "bash", title := "",
      in_mode := false, copy_cursor_x := 0, copy_cursor_y := 0, window_id := "@1",
      border_title := "", alternate_on := false, mouse_any_flag := false,
      group_id := none, group_tab_index := none } (by decide) (by decide)

/-- C8 at the failing input: after a pane maps a cell URL, a dimension-changing
`resize` and a `reset_and_process_capture` both leave the OSC cell-URL map
intact (the claim and the doc comment of `OscParser::reset` say it should be
cleared: the reset function exists and would clear it, but is never called). -/
theorem pane_resize_keeps_cell_urls :
    (((PaneState.new "%1" 80 24).process_output
        [27, 93, 56, 59, 59, 117, 7, 97]).osc.cell_urls = [((0, 0), [117])])
    ∧ (((PaneState.new "%1" 80 24).process_output
        [27, 93, 56, 59, 59, 117, 7, 97]).resize 40 24).2 = true
    ∧ ((((PaneState.new "%1" 80 24).process_output
        [27, 93, 56, 59, 59, 117, 7, 97]).resize 40 24).1.osc.cell_urls
        = [((0, 0), [117])])
    ∧ ((((PaneState.new "%1" 80 24).process_output
        [27, 93, 56, 59, 59, 117, 7, 97]).reset_and_process_capture [104]).osc.cell_urls
        = [((0, 0), [117])])
    ∧ (OscParser.reset (((PaneState.new "%1" 80 24).process_output
        [27, 93, 56, 59, 59, 117, 7, 97]).osc)).cell_urls = [] := by
  have hosc : OscParser.new.process [27, 93, 56, 59, 59, 117, 7, 97] =
      ({ active_hyperlink := some ([117], none), hyperlink_start := some (0, 0),
         cursor_row := 0, cursor_col := 1, hyperlinks := [], pending_clipboard := none,
         cell_urls := [((0, 0), [117])] }, [97]) := by
    simp [OscParser.process, OscParser.processGo, findOscEnd, scanOsc, OscParser.parseOsc,
      dropPfx, OscParser.parseOsc8, splitFirst, findOsc8Id, splitList,
      OscParser.finalizeHyperlink, OscParser.handleByte, alInsert, OscParser.new]
  have hpane : (PaneState.new "%1" 80 24).process_output [27, 93, 56, 59, 59, 117, 7, 97] =
      { PaneState.new "%1" 80 24 with
          raw_buffer := [27, 93, 56, 59, 59, 117, 7, 97]
          osc := { active_hyperlink := some ([117], none), hyperlink_start := some (0, 0),
                   cursor_row := 0, cursor_col := 1, hyperlinks := [], pending_clipboard := none,
                   cell_urls := [((0, 0), [117])] }
          terminal := { rows := 24, cols := 80, fed := [[97]] } } := by
    simp [PaneState.process_output, hosc, Vt100.process, PaneState.new, Vt100.new]
  refine ⟨?_, ?_, ?_, ?_, ?_⟩ <;> rw [hpane] <;> decide

theorem computePaneDelta_self (p : TmuxPane) : (computePaneDelta p p).isEmpty = true := by
  simp [computePaneDelta, PaneDelta.isEmpty, PaneDelta.default]

theorem computeWindowDelta_self (w : TmuxWindow) : (computeWindowDelta w w).isEmpty = true := by
  simp [computeWindowDelta, WindowDelta.isEmpty, WindowDelta.default]

theorem popupDelta_self (x : Option TmuxPopup) : popupDelta x x = none := by
  cases x with
  | none => rfl
  | some p => simp [popupDelta]

theorem alLookup_self_of_nodup {α β : Type} [DecidableEq α] (m : List (α × β)) :
    (m.map Prod.fst).Nodup → ∀ kv ∈ m, alLookup m kv.1 = some kv.2 := by
  induction m with
  | nil => intro _ kv hkv; exact absurd hkv (by simp)
  | cons hd rest ih =>
    intro hnd kv hkv
    simp only [List.map_cons, List.nodup_cons] at hnd
    rcases List.mem_cons.mp hkv with h | h
    · subst h; simp [alLookup]
    · have hne : hd.1 ≠ kv.1 := by
        intro hc
        exact hnd.1 (hc ▸ List.mem_map_of_mem Prod.fst h)
      rw [alLookup, if_neg hne]
      exact ih hnd.2 kv h

theorem nodup_foldl_alInsert {α β : Type} [DecidableEq α] (f : β → α) (l : List β) :
    ∀ m : List (α × β), (m.map Prod.fst).Nodup →
      (((l.foldl (fun m x => alInsert m (f x) x) m)).map Prod.fst).Nodup := by
  induction l with
  | nil => intro m hm; exact hm
  | cons x xs ih =>
    intro m hm
    exact ih (alInsert m (f x) x) (nodup_alInsert m (f x) x hm)

theorem nodup_buildPaneMap (l : List TmuxPane) :
    ((buildPaneMap l).map Prod.fst).Nodup :=
  nodup_foldl_alInsert TmuxPane.tmux_id l [] (by simp)

theorem nodup_buildWindowMap (l : List TmuxWindow) :
    ((buildWindowMap l).map Prod.fst).Nodup :=
  nodup_foldl_alInsert TmuxWindow.id l [] (by simp)

theorem panesDeltaPass_self (m : List (String × TmuxPane))
    (hnd : (m.map Prod.fst).Nodup) : panesDeltaPass m m = ([], []) := by
  have hself := alLookup_self_of_nodup m hnd
  have hfold : ∀ l : List (String × TmuxPane), (∀ kv ∈ l, kv ∈ m) →
      l.foldl (fun (acc : List (String × Option PaneDelta) × List TmuxPane) kv =>
        match alLookup m kv.1 with
        | none => (acc.1, acc.2 ++ [kv.2])
        | some pp =>
          let pd := computePaneDelta pp kv.2
          if pd.isEmpty then acc else (alInsert acc.1 kv.1 (some pd), acc.2)) ([], [])
      = ([], []) := by
    intro l
    induction l with
    | nil => intro _; rfl
    | cons kv rest ih =>
      intro hsub
      have hkvm := hsub kv (by simp)
      rw [List.foldl_cons]
      rw [show (match alLookup m kv.1 with
        | none => (([] : List (String × Option PaneDelta)), ([] : List TmuxPane) ++ [kv.2])
        | some pp =>
          let pd := computePaneDelta pp kv.2
          if pd.isEmpty then ([], []) else (alInsert [] kv.1 (some pd), []))
        = (([] : List (String × Option PaneDelta)), ([] : List TmuxPane)) from by
          rw [hself kv hkvm]
          simp [computePaneDelta_self]]
      exact ih (fun x hx => hsub x (by simp [hx]))
  have hrm : ∀ l : List (String × TmuxPane), (∀ kv ∈ l, kv ∈ m) →
      l.foldl (fun (acc : List (String × Option PaneDelta)) kv =>
        if alContains m kv.1 then acc else alInsert acc kv.1 none) []
      = [] := by
    intro l
    induction l with
    | nil => intro _; rfl
    | cons kv rest ih =>
      intro hsub
      have hcont : alContains m kv.1 = true := by
        unfold alContains
        rw [hself kv (hsub kv (by simp))]
        rfl
      rw [List.foldl_cons, if_pos hcont]
      exact ih (fun x hx => hsub x (by simp [hx]))
  unfold panesDeltaPass
  rw [hfold m (fun _ h => h)]
  simp only []
  rw [hrm m (fun _ h => h)]

theorem windowsDeltaPass_self (m : List (String × TmuxWindow))
    (hnd : (m.map Prod.fst).Nodup) : windowsDeltaPass m m = ([], []) := by
  have hself := alLookup_self_of_nodup m hnd
  have hfold : ∀ l : List (String × TmuxWindow), (∀ kv ∈ l, kv ∈ m) →
      l.foldl (fun (acc : List (String × Option WindowDelta) × List TmuxWindow) kv =>
        match alLookup m kv.1 with
        | none => (acc.1, acc.2 ++ [kv.2])
        | some pw =>
          let wd := computeWindowDelta pw kv.2
          if wd.isEmpty then acc else (alInsert acc.1 kv.1 (some wd), acc.2)) ([], [])
      = ([], []) := by
    intro l
    induction l with
    | nil => intro _; rfl
    | cons kv rest ih =>
      intro hsub
      have hkvm := hsub kv (by simp)
      rw [List.foldl_cons]
      rw [show (match alLookup m kv.1 with
        | none => (([] : List (String × Option WindowDelta)), ([] : List TmuxWindow) ++ [kv.2])
        | some pw =>
          let wd := computeWindowDelta pw kv.2
          if wd.isEmpty then ([], []) else (alInsert [] kv.1 (some wd), []))
        = (([] : List (String × Option WindowDelta)), ([] : List TmuxWindow)) from by
          rw [hself kv hkvm]
          simp [computeWindowDelta_self]]
      exact ih (fun x hx => hsub x (by simp [hx]))
  have hrm : ∀ l : List (String × TmuxWindow), (∀ kv ∈ l, kv ∈ m) →
      l.foldl (fun (acc : List (String × Option WindowDelta)) kv =>
        if alContains m kv.1 then acc else alInsert acc kv.1 none) []
      = [] := by
    intro l
    induction l with
    | nil => intro _; rfl
    | cons kv rest ih =>
      intro hsub
      have hcont : alContains m kv.1 = true := by
        unfold alContains
        rw [hself kv (hsub kv (by simp))]
        rfl
      rw [List.foldl_cons, if_pos hcont]
      exact ih (fun x hx => hsub x (by simp [hx]))
  unfold windowsDeltaPass
  rw [hfold m (fun _ h => h)]
  simp only []
  rw [hrm m (fun _ h => h)]

theorem computeDelta_self (prev : TmuxState) : (computeDelta prev prev).isEmpty = true := by
  unfold computeDelta
  rw [panesDeltaPass_self _ (nodup_buildPaneMap prev.panes),
    windowsDeltaPass_self _ (nodup_buildWindowMap prev.windows)]
  simp [TmuxDelta.isEmpty, TmuxDelta.new, popupDelta_self]

/-- Stamping the sequence number does not change emptiness. -/
theorem isEmpty_set_seq (d : TmuxDelta) (s : Nat) :
    ({ d with seq := s } : TmuxDelta).isEmpty = d.isEmpty := rfl

/-- The pane-change count used by the 50% check equals `changedPanesCount`. -/
theorem changed_count_eq (prev cur : TmuxState) :
    (((computeDelta prev cur).panes.map List.length).getD 0)
      + (((computeDelta prev cur).new_panes.map List.length).getD 0)
      = changedPanesCount prev cur := by
  unfold computeDelta changedPanesCount
  simp only []
  by_cases h1 : (panesDeltaPass (buildPaneMap prev.panes) (buildPaneMap cur.panes)).1 = []
  · by_cases h2 : (panesDeltaPass (buildPaneMap prev.panes) (buildPaneMap cur.panes)).2 = []
    · simp [h1, h2]
    · simp [h1, h2]
  · by_cases h2 : (panesDeltaPass (buildPaneMap prev.panes) (buildPaneMap cur.panes)).2 = []
    · simp [h1, h2]
    · simp [h1, h2]

/-- C2: (i) an unchanged snapshot emits nothing and leaves the tracking state
alone; (ii) every emitted delta is non-empty; (iii) every emission from a
tracked state bumps the sequence counter by exactly one and stamps it on the
emitted delta — so successive emissions carry strictly increasing seq values;
(iv) when more than half of all panes changed, a Full snapshot is emitted
instead of a delta. -/
theorem state_update_emission :
    (∀ (prev : TmuxState) (seq : Nat),
        toStateUpdate (some prev) seq prev = (some prev, seq, none))
    ∧ (∀ (prev : TmuxState) (seq : Nat) (cur : TmuxState) (d : TmuxDelta),
        (toStateUpdate (some prev) seq cur).2.2 = some (.delta d) → d.isEmpty = false)
    ∧ (∀ (prev : TmuxState) (seq : Nat) (cur : TmuxState) (u : StateUpdate),
        (toStateUpdate (some prev) seq cur).2.2 = some u →
        (toStateUpdate (some prev) seq cur).2.1 = seq + 1
        ∧ (∀ d, u = .delta d → d.seq = seq + 1))
    ∧ (∀ (prev : TmuxState) (seq : Nat) (cur : TmuxState),
        0 < cur.panes.length →
        cur.panes.length < 2 * changedPanesCount prev cur →
        (toStateUpdate (some prev) seq cur).2.2 = some (.full cur)) := by
  refine ⟨?_, ?_, ?_, ?_⟩
  · intro prev seq
    simp only [toStateUpdate]
    rw [if_pos (computeDelta_self prev)]
  · intro prev seq cur d h
    simp only [toStateUpdate] at h
    by_cases he : (computeDelta prev cur).isEmpty
    · rw [if_pos he] at h
      exact absurd h (by simp)
    · rw [if_neg he] at h
      by_cases hf : 0 < cur.panes.length
          ∧ cur.panes.length / 2 < ((computeDelta prev cur).panes.map List.length).getD 0
            + ((computeDelta prev cur).new_panes.map List.length).getD 0
      · rw [if_pos hf] at h
        simp at h
      · rw [if_neg hf] at h
        simp only [Option.some.injEq, StateUpdate.delta.injEq] at h
        rw [← h, isEmpty_set_seq]
        exact Bool.not_eq_true _ ▸ he
  · intro prev seq cur u h
    simp only [toStateUpdate] at h ⊢
    by_cases he : (computeDelta prev cur).isEmpty
    · rw [if_pos he] at h
      exact absurd h (by simp)
    · rw [if_neg he] at h ⊢
      by_cases hf : 0 < cur.panes.length
          ∧ cur.panes.length / 2 < ((computeDelta prev cur).panes.map List.length).getD 0
            + ((computeDelta prev cur).new_panes.map List.length).getD 0
      · rw [if_pos hf] at h ⊢
        refine ⟨rfl, ?_⟩
        intro d hd
        simp only [Option.some.injEq] at h
        rw [← h] at hd
        exact absurd hd (by simp)
      · rw [if_neg hf] at h ⊢
        refine ⟨rfl, ?_⟩
        intro d hd
        simp only [Option.some.injEq] at h
        rw [← h] at hd
        simp only [StateUpdate.delta.injEq] at hd
        rw [← hd]
  · intro prev seq cur htot hhalf
    have hch := changed_count_eq prev cur
    have hne : (computeDelta prev cur).isEmpty = false := by
      have hpos : 0 < ((computeDelta prev cur).panes.map List.length).getD 0
          + ((computeDelta prev cur).new_panes.map List.length).getD 0 := by
        rw [hch]; omega
      by_cases hp : (computeDelta prev cur).panes = none
      · by_cases hn : (computeDelta prev cur).new_panes = none
        · rw [hp, hn] at hpos; simp at hpos
        · unfold TmuxDelta.isEmpty
          cases hx : (computeDelta prev cur).new_panes with
          | none => exact absurd hx hn
          | some l => simp [hx]
      · unfold TmuxDelta.isEmpty
        cases hx : (computeDelta prev cur).panes with
        | none => exact absurd hx hp
        | some l => simp [hx]
    simp only [toStateUpdate]
    rw [if_neg (by rw [hne]; exact Bool.false_ne_true)]
    rw [if_pos ⟨htot, by rw [hch]; omega⟩]

/-- Witness for C2 at concrete snapshots: an unchanged empty state emits
nothing at seq 5; widening the total width emits a delta with seq 6 whose
emptiness flag is false; adding one pane to an empty state (1 of 1 panes
changed, more than half) emits a Full snapshot. -/
theorem state_update_emission_witness :
    toStateUpdate (some ⟨"s", none, none, [], [], 80, 24, "", none⟩) 5
        ⟨"s", none, none, [], [], 80, 24, "", none⟩
      = (some ⟨"s", none, none, [], [], 80, 24, "", none⟩, 5, none)
    ∧ TmuxDelta.isEmpty
        ⟨6, none, none, none, none, none, none, none, some 100, none, none⟩ = false
    ∧ (toStateUpdate (some ⟨"s", none, none, [], [], 80, 24, "", none⟩) 5
        ⟨"s", none, none, [], [], 100, 24, "", none⟩).2.1 = 6
    ∧ TmuxDelta.seq ⟨6, none, none, none, none, none, none, none, some 100, none, none⟩ = 6
    ∧ (toStateUpdate (some ⟨"s", none, none, [], [], 80, 24, "", none⟩) 5
        ⟨"s", none, none,
          [⟨0, "%1", "@1", [], 0, 0, 80, 24, 0, 0, true, "bash", "", "", false, 0, 0,
            false, false, false, none, none⟩], [], 80, 24, "", none⟩).2.2
      = some (.full ⟨"s", none, none,
          [⟨0, "%1", "@1", [], 0, 0, 80, 24, 0, 0, true, "bash", "", "", false, 0, 0,
            false, false, false, none, none⟩], [], 80, 24, "", none⟩) := by
  have h := state_update_emission
  refine ⟨h.1 ⟨"s", none, none, [], [], 80, 24, "", none⟩ 5, ?_, ?_, ?_, ?_⟩
  · exact h.2.1 ⟨"s", none, none, [], [], 80, 24, "", none⟩ 5
      ⟨"s", none, none, [], [], 100, 24, "", none⟩
      ⟨6, none, none, none, none, none, none, none, some 100, none, none⟩ (by decide)
  · exact (h.2.2.1 ⟨"s", none, none, [], [], 80, 24, "", none⟩ 5
      ⟨"s", none, none, [], [], 100, 24, "", none⟩
      (.delta ⟨6, none, none, none, none, none, none, none, some 100, none, none⟩)
      (by decide)).1
  · exact (h.2.2.1 ⟨"s", none, none, [], [], 80, 24, "", none⟩ 5
      ⟨"s", none, none, [], [], 100, 24, "", none⟩
      (.delta ⟨6, none, none, none, none, none, none, none, some 100, none, none⟩)
      (by decide)).2
      ⟨6, none, none, none, none, none, none, none, some 100, none, none⟩ rfl
  · exact h.2.2.2 ⟨"s", none, none, [], [], 80, 24, "", none⟩ 5
      ⟨"s", none, none,
        [⟨0, "%1", "@1", [], 0, 0, 80, 24, 0, 0, true, "bash", "", "", false, 0, 0,
          false, false, false, none, none⟩], [], 80, 24, "", none⟩
      (by decide) (by decide)

/-- C5 counterexample: client 1 attaches at 100x50, client 2 at 80x24 (resize
(80,24) applied and recorded); when client 1 detaches, the recomputed minimum
(80,24) equals the last applied resize, yet the detach path issues it again —
the emitted resizes are (100,50), (80,24), (80,24). -/
theorem resize_suppression_counterexample :
    (registryRun ⟨[], [], none⟩
        [.attach 1, .setSize 1 100 50, .attach 2, .setSize 2 80 24, .detach 1]).2
      = [(100, 50), (80, 24), (80, 24)]
    ∧ (registryRun ⟨[], [], none⟩
        [.attach 1, .setSize 1 100 50, .attach 2, .setSize 2 80 24]).1.last_resize
      = some (80, 24) := by
  exact ⟨by decide, by decide⟩

/-- C5 (amended): every resize emitted by an attach / set_client_size /
detach step carries exactly the minimum viewport over the connected clients'
stored sizes after the step, and `set_client_size` suppresses a resize equal
to the last applied one; on the detach path the recomputed minimum is issued
unconditionally (see the counterexample), though it is recorded so later
`set_client_size` duplicates remain suppressed. -/
theorem resize_minimisation (e : SessionEntry) (op : RegistryOp) :
    (∀ r ∈ (registryStep e op).2,
        r = computeMinClientSize (registryStep e op).1.client_sizes)
    ∧ (∀ c w h, op = .setSize c w h →
        e.last_resize = some (computeMinClientSize (alInsert e.client_sizes c (w, h))) →
        (registryStep e op).2 = []) := by
  constructor
  · intro r hr
    cases op with
    | attach c => simp [registryStep] at hr
    | setSize c w h =>
      by_cases hc : e.last_resize = some (computeMinClientSize (alInsert e.client_sizes c (w, h)))
      · exact absurd hr (by simp [registryStep, setClientSize, hc])
      · have hstep : registryStep e (.setSize c w h) =
            ({ e with
                client_sizes := alInsert e.client_sizes c (w, h)
                last_resize := some (computeMinClientSize (alInsert e.client_sizes c (w, h))) },
             [computeMinClientSize (alInsert e.client_sizes c (w, h))]) := by
          simp [registryStep, setClientSize, hc]
        rw [hstep] at hr ⊢
        simp only [List.mem_singleton] at hr
        rw [hr]
    | detach c =>
      by_cases h1 : e.connections.filter (fun id => !(id == c)) = []
      · exact absurd hr (by simp [registryStep, cleanupConnection, h1])
      · by_cases h2 : alContains e.client_sizes c = true ∧ alRemove e.client_sizes c ≠ []
        · have hstep : registryStep e (.detach c) =
              ({ connections := e.connections.filter (fun id => !(id == c)),
                 client_sizes := alRemove e.client_sizes c,
                 last_resize := some (computeMinClientSize (alRemove e.client_sizes c)) },
               [computeMinClientSize (alRemove e.client_sizes c)]) := by
            simp [registryStep, cleanupConnection, h1, h2.1, h2.2]
          rw [hstep] at hr ⊢
          simp only [List.mem_singleton] at hr
          rw [hr]
        · exact absurd hr (by simp [registryStep, cleanupConnection, h1, h2])
  · intro c w h hop hlast
    subst hop
    simp [registryStep, setClientSize, hlast]

/-- Witness for C5 (amended): with one client at 80x24 already applied, a
repeated `set_client_size 80 24` emits no resize. -/
theorem resize_minimisation_witness :
    (registryStep ⟨[1], [(1, (80, 24))], some (80, 24)⟩ (.setSize 1 80 24)).2 = [] :=
  (resize_minimisation ⟨[1], [(1, (80, 24))], some (80, 24)⟩ (.setSize 1 80 24)).2
    1 80 24 rfl (by decide)

/-- C6 counterexample: a raw `resize-window` command through
`run_tmux_command` is blocked (not forwarded) but the arm returns `Ok(null)`,
which `commands_handler` maps to HTTP 200 — a success response, not an
HTTP-style failure code. -/
theorem blocked_resize_counterexample :
    (runTmuxCommandArm "resize-window -x 100 -y 50" true).1 = none
    ∧ commandStatus (runTmuxCommandArm "resize-window -x 100 -y 50" true).2 = 200
    ∧ (200 : Nat) ≠ 400 := by
  exact ⟨by decide, by decide, by decide⟩

/-- C6 (amended): a `run_tmux_command` request whose command text begins with
`resize-window` or `resizew` is not forwarded to the monitor, and the request
is answered with a success response carrying a null result (HTTP 200); the
block is only recorded in the server log. -/
theorem blocked_resize_not_forwarded (cmd : String) (hasMonitor : Bool)
    (h : strStarts cmd "resize-window" = true ∨ strStarts cmd "resizew" = true) :
    (runTmuxCommandArm cmd hasMonitor).1 = none
    ∧ commandStatus (runTmuxCommandArm cmd hasMonitor).2 = 200 := by
  have hb : (strStarts cmd "resize-window" || strStarts cmd "resizew") = true := by
    rcases h with h | h <;> simp [h]
  constructor
  · simp [runTmuxCommandArm, hb]
  · simp [runTmuxCommandArm, hb, commandStatus]

/-- Witness for C6 (amended) on a concrete `resizew` command with no monitor
attached. -/
theorem blocked_resize_not_forwarded_witness :
    (runTmuxCommandArm "resizew -x 1" false).1 = none
    ∧ commandStatus (runTmuxCommandArm "resizew -x 1" false).2 = 200 :=
  blocked_resize_not_forwarded "resizew -x 1" false (Or.inr (by decide))

end Tmuxy
